import Mathlib

/-!
Verification development for `o2valk/abort_biaffine/preprocess.py`, the
corpus-to-tensor preprocessing pipeline (sharding, per-field vocabulary
construction with frequency filtering and optional vocabulary sharing, and
persistence of shards and vocabularies).

The Python source is shallowly embedded: corpus lines are token lists
(`str.split` of a line becomes the list itself, so Python's
`len(line.split())` is `List.length`), `collections.Counter` becomes an
association list from tokens to counts, the third-party
`torchtext.vocab.Vocab` constructor is embedded by its algorithm
(specials first, then non-special tokens sorted by descending frequency
with ties broken by token order, cut off at `max_size` and `min_freq`),
file writes by the program are recorded as explicit `(name, content)`
events, and `AssertionError` raising code returns `Except`.

Tokens are coded as naturals; Python's lexicographic tie-break over token
strings is represented by the order on `Nat`.
-/

namespace Preprocess

/-- A corpus token (Python `str` tokens are coded as naturals). -/
abbrev Token := Nat

/-- A whitespace-tokenized corpus line: the result of Python `line.split()`. -/
abbrev Line := List Token

/-- Embedding of `collections.Counter`: an association list from tokens to
counts, first-occurrence order, unique keys in every counter this program
builds. -/
abbrev Counter := List (Token × Nat)

/-- Count of token `t` in counter `c` (Python `counter[t]`, default 0). -/
def cntGet (c : Counter) (t : Token) : Nat :=
  match c with
  | [] => 0
  | p :: rest => if p.1 = t then p.2 else cntGet rest t

/-- Add one occurrence of `t` (a single step of Python `Counter.update`):
bump the existing entry, else append a new entry at the end, as a Python
dict preserves insertion order. -/
def cntIncr (c : Counter) (t : Token) : Counter :=
  match c with
  | [] => [(t, 1)]
  | p :: rest => if p.1 = t then (p.1, p.2 + 1) :: rest else p :: cntIncr rest t

/-- Python `counter.update(tokens)`: add one occurrence per listed token. -/
def cntUpdate (c : Counter) (ts : List Token) : Counter :=
  ts.foldl cntIncr c

/-- Python `Counter.__add__`: entries of `a` with the counts of `b` added,
then the entries of `b` whose key does not occur in `a`.  (The counters this
program adds hold only positive counts, so the positivity filter of
`Counter.__add__` never removes anything.) -/
def cntAdd (a b : Counter) : Counter :=
  a.map (fun p => (p.1, p.2 + cntGet b p.1)) ++
    b.filter (fun p => !(a.map Prod.fst).contains p.1)

/-- Stable insertion of `x` into a list already sorted by `le`: `x` goes
after every element `y` with `le y x`, as Python's stable `list.sort`. -/
def insSorted (le : α → α → Bool) (x : α) : List α → List α
  | [] => [x]
  | y :: ys => if le y x then y :: insSorted le x ys else x :: y :: ys

/-- Stable sort by `le` (insertion sort), embedding Python's `sorted` /
`list.sort`, which are stable. -/
def ssort (le : α → α → Bool) (l : List α) : List α :=
  l.foldl (fun acc x => insSorted le x acc) []

/-- Order-preserving deduplication, embedding
`OrderedDict.fromkeys(...)`: keep the first occurrence of each element. -/
def dedupAux (seen : List Token) : List Token → List Token
  | [] => []
  | t :: ts => if t ∈ seen then dedupAux seen ts else t :: dedupAux (t :: seen) ts

/-- Keep the first occurrence of each token. -/
def dedup (l : List Token) : List Token :=
  dedupAux [] l

/-- Embedding of a `torchtext.vocab.Vocab` object: `freqs` is the counter the
vocabulary was built from (stored unfiltered), `itos` maps indices to tokens,
`stoi` maps tokens to indices. -/
structure Vocab where
  freqs : Counter
  itos : List Token
  stoi : List (Token × Nat)
deriving DecidableEq

/-- The `{tok: i for i, tok in enumerate(itos)}` table of
`torchtext.vocab.Vocab`. -/
def stoiOf (itos : List Token) : List (Token × Nat) :=
  itos.enum.map (fun p => (p.2, p.1))

/-- The sorted word/frequency pairs of the `torchtext.vocab.Vocab`
constructor: drop the special tokens from the counter, sort by token
(`sorted(counter.items(), key=lambda tup: tup[0])`), then stable-sort by
frequency descending (`words_and_frequencies.sort(key=..., reverse=True)`). -/
def vocabWords (c : Counter) (specials : List Token) : List (Token × Nat) :=
  let c' := c.filter (fun p => ¬ p.1 ∈ specials)
  ssort (fun a b => decide (b.2 ≤ a.2)) (ssort (fun a b => decide (a.1 ≤ b.1)) c')

/-- The word-appending loop of the `torchtext.vocab.Vocab` constructor:
`for word, freq in words_and_frequencies: if freq < min_freq or
len(self.itos) == max_size: break; self.itos.append(word)`. -/
def addWords (minFreq : Nat) (maxSize : Option Nat) (itos : List Token) :
    List (Token × Nat) → List Token
  | [] => itos
  | (w, f) :: rest =>
    if f < minFreq ∨ maxSize = some itos.length then itos
    else addWords minFreq maxSize (itos ++ [w]) rest

/-- Embedding of the `torchtext.vocab.Vocab` constructor (the third-party
class instantiated by `build_field_vocab` and `merge_vocabs`): `freqs` keeps
the raw counter, `itos` starts with the specials and then the non-special
tokens by descending frequency (ties by token order), stopping at the first
token below `max(min_freq, 1)` or once `max_size + len(specials)` entries
are reached. -/
def mkVocab (counter : Counter) (specials : List Token) (maxSize : Option Nat)
    (minFreq : Nat) : Vocab :=
  let minF := max minFreq 1
  let maxS := maxSize.map (· + specials.length)
  let itos := addWords minF maxS specials (vocabWords counter specials)
  { freqs := counter, itos := itos, stoi := stoiOf itos }

/-- Token code of `onmt.constants.UNK_WORD`. -/
def UNK_WORD : Token := 0

/-- Token code of `onmt.constants.PAD_WORD`. -/
def PAD_WORD : Token := 1

/-- Token code of `onmt.constants.BOS_WORD`. -/
def BOS_WORD : Token := 2

/-- Token code of `onmt.constants.EOS_WORD`. -/
def EOS_WORD : Token := 3

/-- Embedding of a `torchtext` `Field` object as used by this program:
its `sequential` flag, its four special tokens (`unk_token`, `pad_token`,
`init_token`, `eos_token`; `None` becomes `none`), and the `vocab`
attribute, absent (`none`) until `build_field_vocab` sets it. -/
structure Field where
  sequential : Bool
  unkTok : Option Token
  padTok : Option Token
  initTok : Option Token
  eosTok : Option Token
  vocab : Option Vocab
deriving DecidableEq

/-- The specials list computed in `build_field_vocab`:
`OrderedDict.fromkeys(tok for tok in [unk, pad, init, eos] if tok is not None)`. -/
def fieldSpecials (f : Field) : List Token :=
  dedup ([f.unkTok, f.padTok, f.initTok, f.eosTok].filterMap id)

/-- Embedding of `build_field_vocab` (preprocess.py lines 30–35): set the
field's `vocab` attribute to a `Vocab` built from the counter with the
field's deduplicated special tokens. -/
def build_field_vocab (f : Field) (counter : Counter) (maxSize : Option Nat)
    (minFreq : Nat) : Field :=
  { f with vocab := some (mkVocab counter (fieldSpecials f) maxSize minFreq) }

/-- The `vocab` attribute of a field after it has been built (Python
`field.vocab`; reading it before `build_field_vocab` would be an
`AttributeError`, embedded as an empty default that never arises on the
paths this file proves about). -/
def vocabOf (f : Field) : Vocab :=
  f.vocab.getD { freqs := [], itos := [], stoi := [] }

/-- Embedding of `merge_vocabs` (preprocess.py lines 38–44): sum the `freqs`
counters of the given vocabularies (`sum([...], Counter())`, a left fold of
`Counter.__add__` starting from the empty counter) and build a `Vocab` with
specials `[UNK, PAD, BOS, EOS]`, the given `vocab_size` as `max_size` and
`min_frequency` as `min_freq`. -/
def merge_vocabs (vocabs : List Vocab) (vocab_size : Option Nat)
    (min_frequency : Nat) : Vocab :=
  mkVocab (vocabs.foldl (fun acc v => cntAdd acc v.freqs) [])
    [UNK_WORD, PAD_WORD, BOS_WORD, EOS_WORD] vocab_size min_frequency

/-- Embedding of a dataset example record with the four fields of this
pipeline.  The `struc` component embeds the Python attribute named
`structure` (a Lean keyword): a list of token rows, over which `build_vocab`
counts row by row. -/
structure Example where
  src : Line
  tgt : Line
  struc : List Line
  mask : Line
deriving DecidableEq

/-- The four fields of this pipeline, keyed `src`, `tgt`, `structure`
(embedded as `struc`) and `mask`. -/
structure Fields where
  src : Field
  tgt : Field
  struc : Field
  mask : Field
deriving DecidableEq

/-- One `Counter` per field, as `build_vocab`'s `counter` dict. -/
structure Counters where
  src : Counter
  tgt : Counter
  struc : Counter
  mask : Counter
deriving DecidableEq

/-- The empty counters `build_vocab` starts from. -/
def emptyCounters : Counters :=
  { src := [], tgt := [], struc := [], mask := [] }

/-- The per-example counting step of `build_vocab` (lines 60–69): for each
sequential field update its counter with the example's value; the
`structure` field's value is a list of rows and its counter is updated once
per row. -/
def countEx (fields : Fields) (c : Counters) (ex : Example) : Counters :=
  { src := if fields.src.sequential then cntUpdate c.src ex.src else c.src
    tgt := if fields.tgt.sequential then cntUpdate c.tgt ex.tgt else c.tgt
    struc := if fields.struc.sequential then ex.struc.foldl cntUpdate c.struc else c.struc
    mask := if fields.mask.sequential then cntUpdate c.mask ex.mask else c.mask }

/-- The counting loop of `build_vocab` (lines 57–76) over the training
dataset shards: `torch.load` of a shard path yields that shard's example
list, embedded here by passing the shard example lists directly. -/
def countAll (fields : Fields) (train_dataset_files : List (List Example)) : Counters :=
  train_dataset_files.foldl (fun acc ds => ds.foldl (countEx fields) acc) emptyCounters

/-- Specification-side occurrence count: the total number of occurrences of
token `u` in the `proj` component of all examples of all shards, used to
characterize the counters `build_vocab` accumulates. -/
def occOf (proj : Example → List Token) (ds : List (List Example)) (u : Token) : Nat :=
  ((ds.flatMap id).map (fun ex => (proj ex).count u)).sum

/-- Embedding of `build_vocab` (preprocess.py lines 47–111): count token
frequencies over the training shards, build the `tgt`, `src`, `structure`
and `mask` vocabularies (the first three with their own size/min-frequency
parameters, `mask` with the literal arguments `max_size=2, min_freq=0`), and,
when `share_vocab`, overwrite the `src` and `tgt` vocabularies with the
single vocabulary produced by `merge_vocabs` under the src-side limits. -/
def build_vocab (train_dataset_files : List (List Example)) (fields : Fields)
    (share_vocab : Bool)
    (src_vocab_size src_words_min_frequency
     tgt_vocab_size tgt_words_min_frequency
     structure_vocab_size structure_words_min_frequency : Nat) : Fields :=
  let counter := countAll fields train_dataset_files
  let tgtF := build_field_vocab fields.tgt counter.tgt (some tgt_vocab_size)
    tgt_words_min_frequency
  let srcF := build_field_vocab fields.src counter.src (some src_vocab_size)
    src_words_min_frequency
  let strucF := build_field_vocab fields.struc counter.struc
    (some structure_vocab_size) structure_words_min_frequency
  let maskF := build_field_vocab fields.mask counter.mask (some 2) 0
  if share_vocab then
    let merged := merge_vocabs [vocabOf srcF, vocabOf tgtF]
      (some src_vocab_size) src_words_min_frequency
    { src := { srcF with vocab := some merged }
      tgt := { tgtF with vocab := some merged }
      struc := strucF, mask := maskF }
  else
    { src := srcF, tgt := tgtF, struc := strucF, mask := maskF }

/-- The assertion failures this program can raise (`AssertionError` sites,
embedded as error values). -/
inductive PErr where
  /-- The per-example length assertion at line 144. -/
  | badExample
  /-- The `raise AssertionError("Source,Target and structure should have the same length")` at line 147. -/
  | lengthMismatch
  /-- The `assert corpus_type in ['train', 'valid']` at line 266. -/
  | badCorpusType
  /-- The `raise AssertionError("-shuffle is not implemented...")` at line 315. -/
  | shuffleNotImplemented
deriving DecidableEq

/-- A corpus as this program sees it: the file path (used to name shard
text files) and the tokenized lines behind it. -/
structure Corpus where
  path : String
  lines : List Line
deriving DecidableEq

/-- The preprocessing options this program reads from `opt` (argument
parsing itself is out of scope; the `*_seq_length*` options are consumed
only by the framework's `build_dataset`, which this embedding models
without length filtering, so they are omitted). -/
structure Opt where
  train_src : Corpus
  train_tgt : Corpus
  train_structure : Corpus
  train_mask : Corpus
  valid_src : Corpus
  valid_tgt : Corpus
  valid_structure : Corpus
  valid_mask : Corpus
  save_data : String
  shard_size : Int
  shuffle : Int
  share_vocab : Bool
  src_vocab_size : Nat
  src_words_min_frequency : Nat
  tgt_vocab_size : Nat
  tgt_words_min_frequency : Nat
  structure_vocab_size : Nat
  structure_words_min_frequency : Nat
deriving DecidableEq

/-- Python `zip` over four lists: stops at the shortest. -/
def zip4 : List α → List β → List γ → List δ → List (α × β × γ × δ)
  | a :: as, b :: bs, c :: cs, d :: ds => (a, b, c, d) :: zip4 as bs cs ds
  | _, _, _, _ => []

/-- The per-example assertion of line 144:
`(len(s.split()) + 1) ** 2 == len(structure.split()) and len(t.split()) ** 2 == len(mask.split())`. -/
def exampleOk (s t st m : Line) : Bool :=
  ((s.length + 1) ^ 2 == st.length) && (t.length ^ 2 == m.length)

/-- The reading loop of `build_save_in_shards_using_shards_size` (lines
138–144): collect the zipped quadruples in order, aborting with
`PErr.badExample` at the first quadruple that fails the length assertion. -/
def readLoop : List (Line × Line × Line × Line) →
    Except PErr (List Line × List Line × List Line × List Line)
  | [] => .ok ([], [], [], [])
  | (s, t, st, m) :: rest =>
    if exampleOk s t st m then
      match readLoop rest with
      | .ok (ss, ts, sts, ms) => .ok (s :: ss, t :: ts, st :: sts, m :: ms)
      | .error e => .error e
    else .error .badExample

/-- Lines 134–144: read the four corpora in parallel with `zip` and collect
`src_data`, `tgt_data`, `structure_data`, `mask_data`, checking the length
assertion on every example. -/
def readCorpora (srcL tgtL stL mL : List Line) :
    Except PErr (List Line × List Line × List Line × List Line) :=
  readLoop (zip4 srcL tgtL stL mL)

/-- The shard slicing of lines 149–186: `num_shards = int(len(data) /
shard_size)` full slices `data[x*S : (x+1)*S]`, plus the remainder slice
`data[num_shards*S:]` when `len(data) > num_shards*S`. -/
def shards (data : List α) (S : Nat) : List (List α) :=
  let numShards := data.length / S
  (List.range numShards).map (fun x => (data.drop (x * S)).take S) ++
    (if numShards * S < data.length then [data.drop (numShards * S)] else [])

/-- The shard text file name `corpus + ".{x}.txt"`. -/
def txtName (corpus : String) (x : Nat) : String :=
  corpus ++ "." ++ toString x ++ ".txt"

/-- The shard dataset file name `"{save_data}_{corpus_type}.{index}.pt"`. -/
def pt_name (save_data corpus_type : String) (index : Nat) : String :=
  save_data ++ "_" ++ corpus_type ++ "." ++ toString index ++ ".pt"

/-- The shard text files one corpus's writing loop produces: file
`corpus.x.txt` holds the `x`-th slice of the data (lines 150–186 write
exactly the slices of `shards`). -/
def shardWrites (corpus : String) (data : List Line) (S : Nat) :
    List (String × List Line) :=
  (shards data S).enum.map (fun p => (txtName corpus p.1, p.2))

/-- Code-point lexicographic comparison of character lists. -/
def lexLe : List Char → List Char → Bool
  | [], _ => true
  | _ :: _, [] => false
  | a :: as, b :: bs =>
    if a.toNat < b.toNat then true
    else if b.toNat < a.toNat then false
    else lexLe as bs

/-- String comparison used by Python `sorted` over file names: code-point
lexicographic order. -/
def strLe (a b : String) : Bool :=
  lexLe a.data b.data

/-- Modelled from the spec: `inputters.dataset.build_dataset` (framework
code outside this file's source) converts four parallel line iterators into
framework-native example records, one per parallel line; the `structure`
line, of `(len(src)+1)^2` tokens, is kept as rows of `len(src)+1` tokens
each, matching its pairwise layout. -/
def build_dataset (srcL tgtL stL mL : List Line) : List Example :=
  (zip4 srcL tgtL stL mL).map (fun q =>
    { src := q.1, tgt := q.2.1, struc := shards q.2.2.1 (q.1.length + 1), mask := q.2.2.2 })

/-- The on-disk effects and return value of building one corpus's datasets:
the shard text files written (name and content), the dataset contents saved
to the returned `.pt` paths (`retList`, aligned index-wise with
`datasets`), and the text files removed again. -/
structure DatasetsOut where
  txtWrites : List (String × List Line)
  retList : List String
  datasets : List (List Example)
  txtRemoved : List String
deriving DecidableEq

/-- The success path of `build_save_in_shards_using_shards_size` (lines
149–232), given the collected `src_data`, `tgt_data`, `structure_data` and
`mask_data`: write the shard text files, glob them back sorted
(`sorted(glob.glob(corpus + '.*.txt'))`), build one dataset per shard from
the re-read text files, save it to `"{save_data}_{corpus_type}.{index}.pt"`
collecting the paths in `ret_list`, and remove the four text files of every
shard.  Corpus paths are taken to be distinct, and the working directory to
hold no other `corpus.*.txt` files, as the source assumes. -/
def shardsOut (src_corpus tgt_corpus structure_corpus mask_corpus : Corpus)
    (corpus_type : String) (opt : Opt)
    (src_data tgt_data structure_data mask_data : List Line) : DatasetsOut :=
  let S := opt.shard_size.toNat
  let srcW := shardWrites src_corpus.path src_data S
  let tgtW := shardWrites tgt_corpus.path tgt_data S
  let stW := shardWrites structure_corpus.path structure_data S
  let mW := shardWrites mask_corpus.path mask_data S
  let txtWrites := srcW ++ tgtW ++ stW ++ mW
  let src_list := ssort strLe (srcW.map Prod.fst)
  let tgt_list := ssort strLe (tgtW.map Prod.fst)
  let structure_list := ssort strLe (stW.map Prod.fst)
  let mask_list := ssort strLe (mW.map Prod.fst)
  let quads := zip4 src_list tgt_list structure_list mask_list
  let readF := fun nm => (txtWrites.lookup nm).getD []
  { txtWrites := txtWrites
    retList := quads.enum.map (fun p => pt_name opt.save_data corpus_type p.1)
    datasets := quads.map (fun q =>
      build_dataset (readF q.1) (readF q.2.1) (readF q.2.2.1) (readF q.2.2.2))
    txtRemoved := quads.flatMap (fun q => [q.1, q.2.1, q.2.2.1, q.2.2.2]) }

/-- Embedding of `build_save_in_shards_using_shards_size` (preprocess.py
lines 129–232): read and check the corpora, then run the success path
`shardsOut` over the collected data. -/
def build_save_in_shards_using_shards_size
    (src_corpus tgt_corpus structure_corpus mask_corpus : Corpus)
    (fields : Fields) (corpus_type : String) (opt : Opt) :
    Except PErr DatasetsOut :=
  match readCorpora src_corpus.lines tgt_corpus.lines structure_corpus.lines mask_corpus.lines with
  | .error e => .error e
  | .ok (src_data, tgt_data, structure_data, mask_data) =>
    if src_data.length ≠ tgt_data.length ∨ tgt_data.length ≠ structure_data.length then
      .error .lengthMismatch
    else
      .ok (shardsOut src_corpus tgt_corpus structure_corpus mask_corpus
        corpus_type opt src_data tgt_data structure_data mask_data)

/-- Embedding of `build_save_dataset` (preprocess.py lines 264–309): assert
the corpus type, pick the train or valid corpora, and either shard (when
`opt.shard_size > 0`) or build and save one monolithic dataset at
`"{save_data}_{corpus_type}.pt"`. -/
def build_save_dataset (corpus_type : String) (fields : Fields) (opt : Opt) :
    Except PErr DatasetsOut :=
  if corpus_type = "train" ∨ corpus_type = "valid" then
    let src_corpus := if corpus_type = "train" then opt.train_src else opt.valid_src
    let tgt_corpus := if corpus_type = "train" then opt.train_tgt else opt.valid_tgt
    let structure_corpus := if corpus_type = "train" then opt.train_structure else opt.valid_structure
    let mask_corpus := if corpus_type = "train" then opt.train_mask else opt.valid_mask
    if opt.shard_size > 0 then
      build_save_in_shards_using_shards_size src_corpus tgt_corpus structure_corpus
        mask_corpus fields corpus_type opt
    else
      .ok
        { txtWrites := []
          retList := [opt.save_data ++ "_" ++ corpus_type ++ ".pt"]
          datasets := [build_dataset src_corpus.lines tgt_corpus.lines
            structure_corpus.lines mask_corpus.lines]
          txtRemoved := [] }
  else .error .badCorpusType

/-- The fields mapping in its iteration order, as `save_fields_to_vocab`
and `build_vocab` iterate it.  Modelled from the spec:
`inputters.dataset.get_fields` (framework-side code outside this file's
source) returns the dict of the four fields `src`, `tgt`, `structure`,
`mask`. -/
def fieldsAssoc (f : Fields) : List (String × Option Field) :=
  [("src", some f.src), ("tgt", some f.tgt), ("structure", some f.struc), ("mask", some f.mask)]

/-- Embedding of `save_fields_to_vocab` (preprocess.py lines 17–27): walk
the fields mapping, and for every field that is not `None` and has a
`vocab` attribute, reassign `f.vocab.stoi = f.vocab.stoi` and append
`(k, f.vocab)`.  State-passing: the first component is the mapping after
the loop, the second the collected vocab list. -/
def save_fields_to_vocab : List (String × Option Field) →
    List (String × Option Field) × List (String × Vocab)
  | [] => ([], [])
  | (k, f?) :: rest =>
    let r := save_fields_to_vocab rest
    match f? with
    | some f =>
      match f.vocab with
      | some v =>
        ((k, some { f with vocab := some { v with stoi := v.stoi } }) :: r.1,
          (k, v) :: r.2)
      | none => ((k, some f) :: r.1, r.2)
    | none => ((k, none) :: r.1, r.2)

/-- Embedding of `store_vocab_to_file` (preprocess.py lines 235–240): line
`i` of the written file is `str(i) + ' ' + itos[i]`, embedded as the pair
`(i, itos[i])`. -/
def store_vocab_to_file (vocab : Vocab) : List (Nat × Token) :=
  vocab.itos.enum

/-- The files `build_save_vocab` writes: the `_vocab.pt` file with the
`save_fields_to_vocab` list, and the four plain-text vocabulary files. -/
structure VocabSaveOut where
  ptName : String
  ptContent : List (String × Vocab)
  txtFiles : List (String × List (Nat × Token))
deriving DecidableEq

/-- Embedding of `build_save_vocab` (preprocess.py lines 243–261): run
`build_vocab` over the training shards with the configured options, then
persist `save_fields_to_vocab(fields)` to `"{save_data}_vocab.pt"` and each
field's `itos` listing to `"{save_data}_src_vocab"`, `_tgt_vocab`,
`_structure_vocab`, `_mask_vocab`. -/
def build_save_vocab (train_dataset : List (List Example)) (fields : Fields)
    (opt : Opt) : VocabSaveOut :=
  let f := build_vocab train_dataset fields opt.share_vocab
    opt.src_vocab_size opt.src_words_min_frequency
    opt.tgt_vocab_size opt.tgt_words_min_frequency
    opt.structure_vocab_size opt.structure_words_min_frequency
  { ptName := opt.save_data ++ "_vocab.pt"
    ptContent := (save_fields_to_vocab (fieldsAssoc f)).2
    txtFiles :=
      [ (opt.save_data ++ "_src_vocab", store_vocab_to_file (vocabOf f.src)),
        (opt.save_data ++ "_tgt_vocab", store_vocab_to_file (vocabOf f.tgt)),
        (opt.save_data ++ "_structure_vocab", store_vocab_to_file (vocabOf f.struc)),
        (opt.save_data ++ "_mask_vocab", store_vocab_to_file (vocabOf f.mask)) ] }

/-- Modelled from the spec: `inputters.dataset.get_fields` (framework-side
code outside this file's source) builds the four sequential text fields
with the standard special tokens. -/
def getFields : Fields :=
  let f : Field :=
    { sequential := true, unkTok := some UNK_WORD, padTok := some PAD_WORD,
      initTok := some BOS_WORD, eosTok := some EOS_WORD, vocab := none }
  { src := f, tgt := f, struc := f, mask := f }

/-- The outputs of one `main` run: the train and valid dataset outputs and
the vocabulary files. -/
structure MainOut where
  trainOut : DatasetsOut
  validOut : DatasetsOut
  vocabOut : VocabSaveOut
deriving DecidableEq

/-- Embedding of `main` (preprocess.py lines 312–331): fail when `shuffle >
0`, build and save the training data, then the validation data, then build
and save the vocabulary from the training dataset files only. -/
def main (opt : Opt) : Except PErr MainOut :=
  if opt.shuffle > 0 then .error .shuffleNotImplemented
  else
    match build_save_dataset "train" getFields opt with
    | .error e => .error e
    | .ok t =>
      match build_save_dataset "valid" getFields opt with
      | .error e => .error e
      | .ok v =>
        .ok { trainOut := t, validOut := v, vocabOut := build_save_vocab t.datasets getFields opt }

/-- The concatenated line lists of four corpora, used to bound which lines
any dataset example can draw from. -/
def corporaLines (a b c d : Corpus) : List Line :=
  a.lines ++ b.lines ++ c.lines ++ d.lines

/-- A sample option record holding one tiny training and validation corpus,
used to evaluate the pipeline at concrete inputs. -/
def sampleOpt : Opt :=
  { train_src := ⟨"ts", [[10]]⟩, train_tgt := ⟨"tt", [[11]]⟩,
    train_structure := ⟨"tst", [[5, 5, 5, 5]]⟩, train_mask := ⟨"tm", [[6]]⟩,
    valid_src := ⟨"vs", [[20]]⟩, valid_tgt := ⟨"vt", [[21]]⟩,
    valid_structure := ⟨"vst", [[5, 5, 5, 5]]⟩, valid_mask := ⟨"vm", [[6]]⟩,
    save_data := "gq", shard_size := 1, shuffle := 0, share_vocab := false,
    src_vocab_size := 100, src_words_min_frequency := 1,
    tgt_vocab_size := 100, tgt_words_min_frequency := 1,
    structure_vocab_size := 100, structure_words_min_frequency := 1 }

/-- A sample example record whose mask line carries three distinct tokens,
each with frequency 5. -/
def c3ex : Example :=
  { src := [], tgt := [], struc := [],
    mask := List.replicate 5 10 ++ List.replicate 5 11 ++ List.replicate 5 12 }

/-- The dataset output the sharding pipeline produces on a three-line
training corpus with shard size 2: two shards, their text files written and
removed again, and the two returned `.pt` paths. -/
def outW : DatasetsOut :=
  { txtWrites := [("ts.0.txt", [[10], [12]]), ("ts.1.txt", [[13]]),
      ("tt.0.txt", [[11], [14]]), ("tt.1.txt", [[15]]),
      ("tst.0.txt", [[5, 5, 5, 5], [5, 5, 5, 5]]), ("tst.1.txt", [[5, 5, 5, 5]]),
      ("tm.0.txt", [[6], [6]]), ("tm.1.txt", [[6]])],
    retList := ["gq_train.0.pt", "gq_train.1.pt"],
    datasets := [[{ src := [10], tgt := [11], struc := [[5, 5], [5, 5]], mask := [6] },
                  { src := [12], tgt := [14], struc := [[5, 5], [5, 5]], mask := [6] }],
                 [{ src := [13], tgt := [15], struc := [[5, 5], [5, 5]], mask := [6] }]],
    txtRemoved := ["ts.0.txt", "tt.0.txt", "tst.0.txt", "tm.0.txt",
      "ts.1.txt", "tt.1.txt", "tst.1.txt", "tm.1.txt"] }

/-- Decidable equality of dataset-building results, to evaluate the
pipeline at concrete inputs. -/
instance : DecidableEq (Except PErr DatasetsOut) := fun a b =>
  match a, b with
  | .ok x, .ok y =>
    if h : x = y then isTrue (by rw [h]) else isFalse (by simp [h])
  | .error e, .error f =>
    if h : e = f then isTrue (by rw [h]) else isFalse (by simp [h])
  | .ok _, .error _ => isFalse (by simp)
  | .error _, .ok _ => isFalse (by simp)

/-- Decidable equality of whole-run results, to evaluate `main` at concrete
inputs. -/
instance : DecidableEq (Except PErr MainOut) := fun a b =>
  match a, b with
  | .ok x, .ok y =>
    if h : x = y then isTrue (by rw [h]) else isFalse (by simp [h])
  | .error e, .error f =>
    if h : e = f then isTrue (by rw [h]) else isFalse (by simp [h])
  | .ok _, .error _ => isFalse (by simp)
  | .error _, .ok _ => isFalse (by simp)

/-- The train-side dataset output of a `main` run over `sampleOpt`. -/
def trainW : DatasetsOut :=
  { txtWrites := [("ts.0.txt", [[10]]), ("tt.0.txt", [[11]]),
      ("tst.0.txt", [[5, 5, 5, 5]]), ("tm.0.txt", [[6]])],
    retList := ["gq_train.0.pt"],
    datasets := [[{ src := [10], tgt := [11], struc := [[5, 5], [5, 5]], mask := [6] }]],
    txtRemoved := ["ts.0.txt", "tt.0.txt", "tst.0.txt", "tm.0.txt"] }

/-- The valid-side dataset output of a `main` run over `sampleOpt`, with
the one source token `n`. -/
def validW (n : Token) : DatasetsOut :=
  { txtWrites := [("vs.0.txt", [[n]]), ("vt.0.txt", [[21]]),
      ("vst.0.txt", [[5, 5, 5, 5]]), ("vm.0.txt", [[6]])],
    retList := ["gq_valid.0.pt"],
    datasets := [[{ src := [n], tgt := [21], struc := [[5, 5], [5, 5]], mask := [6] }]],
    txtRemoved := ["vs.0.txt", "vt.0.txt", "vst.0.txt", "vm.0.txt"] }

/-- The vocabulary files a `main` run over `sampleOpt` writes. -/
def vocW : VocabSaveOut :=
  { ptName := "gq_vocab.pt",
    ptContent :=
      [("src", ⟨[(10, 1)], [0, 1, 2, 3, 10], [(0, 0), (1, 1), (2, 2), (3, 3), (10, 4)]⟩),
       ("tgt", ⟨[(11, 1)], [0, 1, 2, 3, 11], [(0, 0), (1, 1), (2, 2), (3, 3), (11, 4)]⟩),
       ("structure", ⟨[(5, 4)], [0, 1, 2, 3, 5], [(0, 0), (1, 1), (2, 2), (3, 3), (5, 4)]⟩),
       ("mask", ⟨[(6, 1)], [0, 1, 2, 3, 6], [(0, 0), (1, 1), (2, 2), (3, 3), (6, 4)]⟩)],
    txtFiles := [("gq_src_vocab", [(0, 0), (1, 1), (2, 2), (3, 3), (4, 10)]),
                 ("gq_tgt_vocab", [(0, 0), (1, 1), (2, 2), (3, 3), (4, 11)]),
                 ("gq_structure_vocab", [(0, 0), (1, 1), (2, 2), (3, 3), (4, 5)]),
                 ("gq_mask_vocab", [(0, 0), (1, 1), (2, 2), (3, 3), (4, 6)])] }

/-- The whole-run output of `main sampleOpt`. -/
def mOut : MainOut :=
  { trainOut := trainW, validOut := validW 20, vocabOut := vocW }

/-- The whole-run output of `main` over `sampleOpt` with the valid source
token changed to 30. -/
def mOut2 : MainOut :=
  { trainOut := trainW, validOut := validW 30, vocabOut := vocW }

/-! ### Counter lemmas -/

theorem cntGet_cntIncr (c : Counter) (t u : Token) :
    cntGet (cntIncr c t) u = cntGet c u + (if u = t then 1 else 0) := by
  induction c with
  | nil =>
    by_cases h : u = t
    · subst h; simp [cntIncr, cntGet]
    · have h' : ¬ t = u := fun hh => h hh.symm
      simp [cntIncr, cntGet, h, h']
  | cons p rest ih =>
    unfold cntIncr
    by_cases h1 : p.1 = t
    · rw [if_pos h1]
      by_cases h2 : p.1 = u
      · have hut : u = t := h2 ▸ h1
        simp [cntGet, h1, h2, hut]
      · have h3 : ¬ t = u := fun hh => h2 (h1.trans hh)
        have h4 : ¬ u = t := fun hh => h3 hh.symm
        simp [cntGet, h1, h2, h3, h4]
    · rw [if_neg h1]
      by_cases h2 : p.1 = u
      · have h4 : ¬ u = t := fun hh => h1 (h2.trans hh)
        simp [cntGet, h2, h4]
      · simp [cntGet, h2, ih]

theorem cntGet_cntUpdate (c : Counter) (ts : List Token) (u : Token) :
    cntGet (cntUpdate c ts) u = cntGet c u + ts.count u := by
  induction ts generalizing c with
  | nil => simp [cntUpdate]
  | cons t ts ih =>
    have : cntUpdate c (t :: ts) = cntUpdate (cntIncr c t) ts := rfl
    rw [this, ih, cntGet_cntIncr, List.count_cons]
    by_cases h : u = t
    · subst h; simp; omega
    · have h' : ¬ t = u := fun hh => h hh.symm
      simp [h, h']

theorem cntGet_eq_zero_of_not_mem (c : Counter) (t : Token)
    (h : ¬ t ∈ c.map Prod.fst) : cntGet c t = 0 := by
  induction c with
  | nil => rfl
  | cons p rest ih =>
    simp only [List.map_cons, List.mem_cons] at h
    push_neg at h
    have h1 : ¬ p.1 = t := fun hh => h.1 hh.symm
    simp [cntGet, h1, ih h.2]

theorem cntGet_append_of_not_mem (x y : Counter) (t : Token)
    (h : ¬ t ∈ x.map Prod.fst) : cntGet (x ++ y) t = cntGet y t := by
  induction x with
  | nil => rfl
  | cons p rest ih =>
    simp only [List.map_cons, List.mem_cons] at h
    push_neg at h
    have h1 : ¬ p.1 = t := fun hh => h.1 hh.symm
    simp [cntGet, h1, ih h.2]

theorem cntGet_filter_key (b : Counter) (q : Token → Bool) (t : Token) :
    cntGet (b.filter (fun p => q p.1)) t = if q t then cntGet b t else 0 := by
  induction b with
  | nil => simp [cntGet]
  | cons p rest ih =>
    by_cases hq : q p.1
    · by_cases h1 : p.1 = t
      · subst h1; simp [List.filter_cons, hq, cntGet]
      · simp [List.filter_cons, hq, cntGet, h1, ih]
    · by_cases h1 : p.1 = t
      · subst h1; simp [List.filter_cons, hq, cntGet, ih]
      · simp [List.filter_cons, hq, cntGet, h1, ih]

theorem cntGet_mapAdd_of_mem (a b : Counter) (t : Token)
    (h : t ∈ a.map Prod.fst) :
    cntGet (a.map (fun p => (p.1, p.2 + cntGet b p.1))) t = cntGet a t + cntGet b t := by
  induction a with
  | nil => simp at h
  | cons p rest ih =>
    by_cases h1 : p.1 = t
    · subst h1; simp [cntGet]
    · simp only [List.map_cons, List.mem_cons] at h
      rcases h with h | h
      · exact absurd h.symm h1
      · simp [cntGet, h1, ih h]

theorem keys_mapAdd (a b : Counter) :
    (a.map (fun p => (p.1, p.2 + cntGet b p.1))).map Prod.fst = a.map Prod.fst := by
  induction a with
  | nil => rfl
  | cons p rest ih => simp [ih]

theorem cntGet_append_of_mem (x y : Counter) (t : Token)
    (h : t ∈ x.map Prod.fst) : cntGet (x ++ y) t = cntGet x t := by
  induction x with
  | nil => simp at h
  | cons p rest ih =>
    by_cases h1 : p.1 = t
    · simp [cntGet, h1]
    · simp only [List.map_cons, List.mem_cons] at h
      rcases h with h | h
      · exact absurd h.symm h1
      · simp [cntGet, h1, ih h]

/-- Element-wise characterization of `Counter.__add__`. -/
theorem cntGet_cntAdd (a b : Counter) (t : Token) :
    cntGet (cntAdd a b) t = cntGet a t + cntGet b t := by
  by_cases hmem : t ∈ a.map Prod.fst
  · have hm : t ∈ (a.map (fun p => (p.1, p.2 + cntGet b p.1))).map Prod.fst := by
      rw [keys_mapAdd]; exact hmem
    unfold cntAdd
    rw [cntGet_append_of_mem _ _ _ hm, cntGet_mapAdd_of_mem a b t hmem]
  · have h1 : ¬ t ∈ (a.map (fun p => (p.1, p.2 + cntGet b p.1))).map Prod.fst := by
      rw [keys_mapAdd]; exact hmem
    unfold cntAdd
    rw [cntGet_append_of_not_mem _ _ _ h1]
    have hfk := cntGet_filter_key b (fun u => !(a.map Prod.fst).contains u) t
    rw [hfk]
    have hc : ¬ ((a.map Prod.fst).contains t = true) :=
      fun hcc => hmem (List.elem_iff.mp hcc)
    have hc' : ((a.map Prod.fst).contains t) = false := Bool.eq_false_iff.mpr hc
    rw [cntGet_eq_zero_of_not_mem a t hmem, hc']
    simp

/-- Summing with the empty counter on the left is the identity (all counters
this program adds have positive counts). -/
theorem cntAdd_nil (b : Counter) : cntAdd [] b = b := by
  unfold cntAdd
  simp

/-! ### Shard partition lemmas -/

theorem shards_chunks_flatten (data : List α) (S : Nat) (n : Nat) :
    ((List.range n).map (fun x => (data.drop (x * S)).take S)).flatten
      = data.take (n * S) := by
  induction n with
  | zero => simp
  | succ n ih =>
    rw [List.range_succ, List.map_append, List.flatten_append, ih]
    simp only [List.map_cons, List.map_nil, List.flatten_cons, List.flatten_nil,
      List.append_nil]
    rw [Nat.succ_mul, List.take_add]

/-- Concatenating all shards in index order restores the data. -/
theorem shards_flatten (data : List α) (S : Nat) :
    (shards data S).flatten = data := by
  unfold shards
  by_cases h : data.length / S * S < data.length
  · simp only [h, if_pos, List.flatten_append, shards_chunks_flatten]
    simp [List.take_append_drop]
  · simp only [h, if_neg, List.flatten_append, shards_chunks_flatten]
    have hle : data.length ≤ data.length / S * S := Nat.le_of_not_lt h
    simp [List.take_of_length_le hle]

theorem div_mul_lt_iff_mod_ne (n S : Nat) (hS : 0 < S) :
    n / S * S < n ↔ n % S ≠ 0 := by
  have key : n / S * S + n % S = n := Nat.div_add_mod' n S
  constructor
  · intro h h0
    rw [h0] at key
    simp at key
    omega
  · intro h0
    rcases Nat.lt_or_ge (n / S * S) n with h | h
    · exact h
    · have heq : n / S * S = n := Nat.le_antisymm (Nat.div_mul_le_self n S) h
      rw [heq] at key
      have : n % S = 0 := by omega
      exact absurd this h0

theorem length_shards (data : List α) (S : Nat) (hS : 0 < S) :
    (shards data S).length
      = data.length / S + (if data.length % S = 0 then 0 else 1) := by
  unfold shards
  simp only [List.length_append, List.length_map, List.length_range]
  congr 1
  by_cases h : data.length % S = 0
  · have : ¬ data.length / S * S < data.length := by
      intro hlt
      exact (div_mul_lt_iff_mod_ne data.length S hS).mp hlt h
    simp [h, this]
  · have : data.length / S * S < data.length :=
      (div_mul_lt_iff_mod_ne data.length S hS).mpr h
    simp [h, this]

theorem shards_getElem_full (data : List α) (S : Nat) (x : Nat)
    (hx : x < data.length / S) :
    (shards data S)[x]? = some ((data.drop (x * S)).take S) := by
  unfold shards
  rw [List.getElem?_append]
  simp only [List.length_map, List.length_range]
  rw [if_pos hx, List.getElem?_map]
  simp [List.getElem?_range hx]

theorem slice_length_full (data : List α) (S : Nat) (x : Nat) (hS : 0 < S)
    (hx : x < data.length / S) :
    ((data.drop (x * S)).take S).length = S := by
  have h1 : (x + 1) * S ≤ data.length / S * S :=
    Nat.mul_le_mul_right S hx
  have h2 : data.length / S * S ≤ data.length := Nat.div_mul_le_self _ _
  have h3 : x * S + S ≤ data.length := by
    rw [Nat.succ_mul] at h1
    exact Nat.le_trans h1 h2
  simp only [List.length_take, List.length_drop]
  omega

theorem shards_getElem_last (data : List α) (S : Nat) (hS : 0 < S)
    (h : data.length % S ≠ 0) :
    (shards data S)[data.length / S]? = some (data.drop (data.length / S * S))
      ∧ (data.drop (data.length / S * S)).length = data.length % S := by
  have hlt : data.length / S * S < data.length :=
    (div_mul_lt_iff_mod_ne data.length S hS).mpr h
  constructor
  · unfold shards
    rw [List.getElem?_append]
    simp only [List.length_map, List.length_range, Nat.lt_irrefl, if_neg, if_false,
      Nat.sub_self]
    simp [hlt]
  · have key : data.length / S * S + data.length % S = data.length :=
      Nat.div_add_mod' data.length S
    simp only [List.length_drop]
    omega

/-- Claim C1: for shard size `S > 0`, `build_save_in_shards_using_shards_size`
splits the `N` collected examples into `⌊N/S⌋` shards of exactly `S` lines
(shard `x` holding the slice `[x*S, (x+1)*S)`), plus one final shard of the
remaining `N mod S` lines when `N mod S ≠ 0`, and concatenating the shards in
index order restores the original sequence. -/
theorem c1_shards_partition (data : List α) (S : Nat) (hS : 0 < S) :
    (shards data S).length
        = data.length / S + (if data.length % S = 0 then 0 else 1)
    ∧ (∀ x, x < data.length / S →
        (shards data S)[x]? = some ((data.drop (x * S)).take S)
        ∧ ((data.drop (x * S)).take S).length = S)
    ∧ (data.length % S ≠ 0 →
        (shards data S)[data.length / S]?
            = some (data.drop (data.length / S * S))
        ∧ (data.drop (data.length / S * S)).length = data.length % S)
    ∧ (shards data S).flatten = data :=
  ⟨length_shards data S hS,
   fun x hx => ⟨shards_getElem_full data S x hx, slice_length_full data S x hS hx⟩,
   fun h => shards_getElem_last data S hS h,
   shards_flatten data S⟩

/-- Witness for C1 at `data = [10, 20, 30, 40, 50]`, `S = 2`. -/
theorem c1_shards_partition_witness :
    0 < 2
    ∧ ((shards [10, 20, 30, 40, 50] 2).length
          = 5 / 2 + (if 5 % 2 = 0 then 0 else 1)
        ∧ (∀ x, x < 5 / 2 →
            (shards [10, 20, 30, 40, 50] 2)[x]?
                = some (([10, 20, 30, 40, 50].drop (x * 2)).take 2)
            ∧ (([10, 20, 30, 40, 50].drop (x * 2)).take 2).length = 2)
        ∧ (5 % 2 ≠ 0 →
            (shards [10, 20, 30, 40, 50] 2)[5 / 2]?
                = some ([10, 20, 30, 40, 50].drop (5 / 2 * 2))
            ∧ ([10, 20, 30, 40, 50].drop (5 / 2 * 2)).length = 5 % 2)
        ∧ (shards [10, 20, 30, 40, 50] 2).flatten = [10, 20, 30, 40, 50]) := by
  refine ⟨by decide, ?_⟩
  have h := c1_shards_partition (α := Nat) [10, 20, 30, 40, 50] 2 (by decide)
  simpa using h

/-! ### Reading-loop lemmas -/

theorem exampleOk_iff (s t st m : Line) :
    exampleOk s t st m = true
      ↔ ((s.length + 1) ^ 2 = st.length ∧ t.length ^ 2 = m.length) := by
  simp [exampleOk, Bool.and_eq_true, beq_iff_eq]

theorem readLoop_eq (qs : List (Line × Line × Line × Line)) :
    readLoop qs =
      if qs.all (fun q => exampleOk q.1 q.2.1 q.2.2.1 q.2.2.2) then
        .ok (qs.map (fun q => q.1), qs.map (fun q => q.2.1),
             qs.map (fun q => q.2.2.1), qs.map (fun q => q.2.2.2))
      else .error .badExample := by
  induction qs with
  | nil => rfl
  | cons q rest ih =>
    rcases q with ⟨s, t, st, m⟩
    by_cases h : exampleOk s t st m = true
    · by_cases h2 : rest.all (fun q => exampleOk q.1 q.2.1 q.2.2.1 q.2.2.2) = true
      · simp [readLoop, h, h2, ih]
      · simp [readLoop, h, h2, ih]
    · simp [readLoop, h]

theorem zip4_length (a : List α) (b : List β) (c : List γ) (d : List δ) :
    (zip4 a b c d).length
      = min a.length (min b.length (min c.length d.length)) := by
  induction a generalizing b c d with
  | nil => cases b <;> cases c <;> cases d <;> simp [zip4]
  | cons x xs ih =>
    cases b with
    | nil => simp [zip4]
    | cons y ys =>
      cases c with
      | nil => simp [zip4]
      | cons z zs =>
        cases d with
        | nil => simp [zip4]
        | cons w ws =>
          simp only [zip4, List.length_cons, ih]
          omega

theorem zip4_components (a : List α) (b : List β) (c : List γ) (d : List δ) :
    (zip4 a b c d).map (fun q => q.1) = a.take (zip4 a b c d).length
    ∧ (zip4 a b c d).map (fun q => q.2.1) = b.take (zip4 a b c d).length
    ∧ (zip4 a b c d).map (fun q => q.2.2.1) = c.take (zip4 a b c d).length
    ∧ (zip4 a b c d).map (fun q => q.2.2.2) = d.take (zip4 a b c d).length := by
  induction a generalizing b c d with
  | nil => cases b <;> cases c <;> cases d <;> simp [zip4]
  | cons x xs ih =>
    cases b with
    | nil => simp [zip4]
    | cons y ys =>
      cases c with
      | nil => simp [zip4]
      | cons z zs =>
        cases d with
        | nil => simp [zip4]
        | cons w ws =>
          rcases ih ys zs ws with ⟨i1, i2, i3, i4⟩
          simp [zip4, i1, i2, i3, i4]

/-- Claim C4: an example read by `build_save_in_shards_using_shards_size`
passes only when the structure line has `(len(src)+1)^2` tokens and the mask
line `len(tgt)^2` tokens; any violating example makes the function fail with
the `AssertionError` of line 144 (the error result carries no shard output,
so no shard file is written). -/
theorem c4_length_assertions
    (src_corpus tgt_corpus structure_corpus mask_corpus : Corpus)
    (fields : Fields) (corpus_type : String) (opt : Opt) :
    (∀ out,
      build_save_in_shards_using_shards_size src_corpus tgt_corpus
          structure_corpus mask_corpus fields corpus_type opt = .ok out →
      ∀ q ∈ zip4 src_corpus.lines tgt_corpus.lines structure_corpus.lines
          mask_corpus.lines,
        (q.1.length + 1) ^ 2 = q.2.2.1.length
        ∧ q.2.1.length ^ 2 = q.2.2.2.length)
    ∧ ((∃ q ∈ zip4 src_corpus.lines tgt_corpus.lines structure_corpus.lines
          mask_corpus.lines,
        ¬ ((q.1.length + 1) ^ 2 = q.2.2.1.length
            ∧ q.2.1.length ^ 2 = q.2.2.2.length)) →
      build_save_in_shards_using_shards_size src_corpus tgt_corpus
          structure_corpus mask_corpus fields corpus_type opt
        = .error .badExample) := by
  constructor
  · intro out hok q hq
    by_cases hall : (zip4 src_corpus.lines tgt_corpus.lines
        structure_corpus.lines mask_corpus.lines).all
        (fun q => exampleOk q.1 q.2.1 q.2.2.1 q.2.2.2) = true
    · exact (exampleOk_iff _ _ _ _).mp (List.all_eq_true.mp hall q hq)
    · exfalso
      unfold build_save_in_shards_using_shards_size readCorpora at hok
      rw [readLoop_eq, if_neg hall] at hok
      exact Except.noConfusion hok
  · intro ⟨q, hq, hbad⟩
    have hall : ¬ (zip4 src_corpus.lines tgt_corpus.lines
        structure_corpus.lines mask_corpus.lines).all
        (fun q => exampleOk q.1 q.2.1 q.2.2.1 q.2.2.2) = true := by
      intro hall
      exact hbad ((exampleOk_iff _ _ _ _).mp (List.all_eq_true.mp hall q hq))
    unfold build_save_in_shards_using_shards_size readCorpora
    rw [readLoop_eq, if_neg hall]

/-- Witness for C4 at a corpus whose single example has a one-token source,
a three-token structure line (instead of the required four) and matching
mask: the function fails with the line-144 assertion. -/
theorem c4_length_assertions_witness :
    (∃ q ∈ zip4 [[4]] [[5]] [[6, 6, 6]] [[7]],
        ¬ ((q.1.length + 1) ^ 2 = q.2.2.1.length
            ∧ q.2.1.length ^ 2 = q.2.2.2.length))
    ∧ build_save_in_shards_using_shards_size ⟨"s", [[4]]⟩ ⟨"t", [[5]]⟩
        ⟨"st", [[6, 6, 6]]⟩ ⟨"m", [[7]]⟩ getFields "train"
        { train_src := ⟨"s", []⟩, train_tgt := ⟨"t", []⟩,
          train_structure := ⟨"st", []⟩, train_mask := ⟨"m", []⟩,
          valid_src := ⟨"vs", []⟩, valid_tgt := ⟨"vt", []⟩,
          valid_structure := ⟨"vst", []⟩, valid_mask := ⟨"vm", []⟩,
          save_data := "gq", shard_size := 1, shuffle := 0,
          share_vocab := false,
          src_vocab_size := 100, src_words_min_frequency := 1,
          tgt_vocab_size := 100, tgt_words_min_frequency := 1,
          structure_vocab_size := 100, structure_words_min_frequency := 1 }
      = .error .badExample := by
  refine ⟨⟨([4], [5], [6, 6, 6], [7]), by decide, by decide⟩, ?_⟩
  exact (c4_length_assertions ⟨"s", [[4]]⟩ ⟨"t", [[5]]⟩ ⟨"st", [[6, 6, 6]]⟩
    ⟨"m", [[7]]⟩ getFields "train" _).2
    ⟨([4], [5], [6, 6, 6], [7]), by decide, by decide⟩

/-- Claim C8: the `raise AssertionError("Source,Target and structure should
have the same length")` at line 147 is unreachable, because the four corpus
files are read with `zip`, which stops at the shortest: the collected lists
always have equal length, and corpora of unequal line counts are silently
truncated to the shortest (`take` of the common length) rather than
reported. -/
theorem c8_length_mismatch_unreachable
    (src_corpus tgt_corpus structure_corpus mask_corpus : Corpus)
    (fields : Fields) (corpus_type : String) (opt : Opt) :
    build_save_in_shards_using_shards_size src_corpus tgt_corpus
        structure_corpus mask_corpus fields corpus_type opt
      ≠ .error .lengthMismatch
    ∧ (∀ s t st m,
        readCorpora src_corpus.lines tgt_corpus.lines structure_corpus.lines
            mask_corpus.lines = .ok (s, t, st, m) →
        s.length = t.length ∧ t.length = st.length ∧ st.length = m.length
        ∧ s = src_corpus.lines.take
            (min src_corpus.lines.length (min tgt_corpus.lines.length
              (min structure_corpus.lines.length mask_corpus.lines.length)))
        ∧ t = tgt_corpus.lines.take
            (min src_corpus.lines.length (min tgt_corpus.lines.length
              (min structure_corpus.lines.length mask_corpus.lines.length)))
        ∧ st = structure_corpus.lines.take
            (min src_corpus.lines.length (min tgt_corpus.lines.length
              (min structure_corpus.lines.length mask_corpus.lines.length)))
        ∧ m = mask_corpus.lines.take
            (min src_corpus.lines.length (min tgt_corpus.lines.length
              (min structure_corpus.lines.length mask_corpus.lines.length)))) := by
  have hcomp := zip4_components src_corpus.lines tgt_corpus.lines
    structure_corpus.lines mask_corpus.lines
  have hlen := zip4_length src_corpus.lines tgt_corpus.lines
    structure_corpus.lines mask_corpus.lines
  constructor
  · intro hbad
    unfold build_save_in_shards_using_shards_size readCorpora at hbad
    rw [readLoop_eq] at hbad
    by_cases hall : (zip4 src_corpus.lines tgt_corpus.lines
        structure_corpus.lines mask_corpus.lines).all
        (fun q => exampleOk q.1 q.2.1 q.2.2.1 q.2.2.2) = true
    · rw [if_pos hall] at hbad
      simp only [List.length_map, ne_eq] at hbad
      rw [if_neg (by simp)] at hbad
      exact Except.noConfusion hbad
    · rw [if_neg hall] at hbad
      simp at hbad
  · intro s t st m hok
    unfold readCorpora at hok
    rw [readLoop_eq] at hok
    by_cases hall : (zip4 src_corpus.lines tgt_corpus.lines
        structure_corpus.lines mask_corpus.lines).all
        (fun q => exampleOk q.1 q.2.1 q.2.2.1 q.2.2.2) = true
    · rw [if_pos hall] at hok
      injection hok with hok
      have hs := congrArg (fun p => p.1) hok
      have ht := congrArg (fun p => p.2.1) hok
      have hst := congrArg (fun p => p.2.2.1) hok
      have hm := congrArg (fun p => p.2.2.2) hok
      simp only at hs ht hst hm
      subst hs; subst ht; subst hst; subst hm
      refine ⟨by simp, by simp, by simp, ?_, ?_, ?_, ?_⟩
      · rw [hcomp.1, hlen]
      · rw [hcomp.2.1, hlen]
      · rw [hcomp.2.2.1, hlen]
      · rw [hcomp.2.2.2, hlen]
    · rw [if_neg hall] at hok
      exact Except.noConfusion hok

/-- Witness for C8 at corpora of lengths 2, 1, 1, 1: reading succeeds and
every collected list is the one-line truncation. -/
theorem c8_length_mismatch_unreachable_witness :
    readCorpora [[4], [9]] [[5]] [[6, 6, 6, 6]] [[7]]
        = .ok ([[4]], [[5]], [[6, 6, 6, 6]], [[7]])
    ∧ ([[4]] : List Line).length = ([[5]] : List Line).length := by
  have h := (c8_length_mismatch_unreachable ⟨"s", [[4], [9]]⟩ ⟨"t", [[5]]⟩
    ⟨"st", [[6, 6, 6, 6]]⟩ ⟨"m", [[7]]⟩ getFields "train"
    { train_src := ⟨"s", []⟩, train_tgt := ⟨"t", []⟩,
      train_structure := ⟨"st", []⟩, train_mask := ⟨"m", []⟩,
      valid_src := ⟨"vs", []⟩, valid_tgt := ⟨"vt", []⟩,
      valid_structure := ⟨"vst", []⟩, valid_mask := ⟨"vm", []⟩,
      save_data := "gq", shard_size := 1, shuffle := 0,
      share_vocab := false,
      src_vocab_size := 100, src_words_min_frequency := 1,
      tgt_vocab_size := 100, tgt_words_min_frequency := 1,
      structure_vocab_size := 100, structure_words_min_frequency := 1 }).2
    [[4]] [[5]] [[6, 6, 6, 6]] [[7]] rfl
  exact ⟨rfl, h.1⟩

/-! ### Vocabulary persistence -/

theorem save_fields_to_vocab_spec (fl : List (String × Option Field)) :
    (save_fields_to_vocab fl).1 = fl
    ∧ (save_fields_to_vocab fl).2
        = fl.filterMap (fun p => (p.2.bind Field.vocab).map (fun v => (p.1, v))) := by
  induction fl with
  | nil => exact ⟨rfl, rfl⟩
  | cons p rest ih =>
    rcases p with ⟨k, f?⟩
    cases f? with
    | none => simp [save_fields_to_vocab, ih.1, ih.2, List.filterMap_cons]
    | some f =>
      cases hv : f.vocab with
      | none => simp [save_fields_to_vocab, hv, ih.1, ih.2, List.filterMap_cons]
      | some v =>
        have hveta : ({ v with stoi := v.stoi } : Vocab) = v := rfl
        have hf : ({ f with vocab := some v } : Field) = f := by rw [← hv]
        simp [save_fields_to_vocab, hv, ih.1, ih.2, List.filterMap_cons, hveta, hf]

/-- Claim C9: `save_fields_to_vocab` is read-only with respect to its
argument (its `stoi` assignment is an identity self-assignment, so the
mapping is unchanged), and it returns exactly the `(key, vocab)` pairs of
the fields that are not `None` and have a `vocab` attribute, in mapping
order. -/
theorem c9_save_fields_to_vocab_readonly (fl : List (String × Option Field)) :
    (save_fields_to_vocab fl).1 = fl
    ∧ (save_fields_to_vocab fl).2
        = fl.filterMap (fun p => (p.2.bind Field.vocab).map (fun v => (p.1, v))) :=
  save_fields_to_vocab_spec fl

/-- Claim C5: `build_save_vocab` persists every built vocabulary: the
`"{save_data}_vocab.pt"` file holds the `(field name, vocab)` pairs of
exactly the fields carrying a vocabulary, and the four plain-text files
`_src_vocab`, `_tgt_vocab`, `_structure_vocab`, `_mask_vocab` list each
vocabulary with line `i` equal to `(i, itos[i])`, in index order from 0. -/
theorem c5_build_save_vocab_persists (train_dataset : List (List Example))
    (fields : Fields) (opt : Opt) :
    (build_save_vocab train_dataset fields opt).ptName
        = opt.save_data ++ "_vocab.pt"
    ∧ (build_save_vocab train_dataset fields opt).ptContent
        = (fieldsAssoc (build_vocab train_dataset fields opt.share_vocab
            opt.src_vocab_size opt.src_words_min_frequency
            opt.tgt_vocab_size opt.tgt_words_min_frequency
            opt.structure_vocab_size opt.structure_words_min_frequency)).filterMap
            (fun p => (p.2.bind Field.vocab).map (fun v => (p.1, v)))
    ∧ (build_save_vocab train_dataset fields opt).txtFiles
        = [ (opt.save_data ++ "_src_vocab",
              store_vocab_to_file (vocabOf (build_vocab train_dataset fields
                opt.share_vocab opt.src_vocab_size opt.src_words_min_frequency
                opt.tgt_vocab_size opt.tgt_words_min_frequency
                opt.structure_vocab_size opt.structure_words_min_frequency).src)),
            (opt.save_data ++ "_tgt_vocab",
              store_vocab_to_file (vocabOf (build_vocab train_dataset fields
                opt.share_vocab opt.src_vocab_size opt.src_words_min_frequency
                opt.tgt_vocab_size opt.tgt_words_min_frequency
                opt.structure_vocab_size opt.structure_words_min_frequency).tgt)),
            (opt.save_data ++ "_structure_vocab",
              store_vocab_to_file (vocabOf (build_vocab train_dataset fields
                opt.share_vocab opt.src_vocab_size opt.src_words_min_frequency
                opt.tgt_vocab_size opt.tgt_words_min_frequency
                opt.structure_vocab_size opt.structure_words_min_frequency).struc)),
            (opt.save_data ++ "_mask_vocab",
              store_vocab_to_file (vocabOf (build_vocab train_dataset fields
                opt.share_vocab opt.src_vocab_size opt.src_words_min_frequency
                opt.tgt_vocab_size opt.tgt_words_min_frequency
                opt.structure_vocab_size opt.structure_words_min_frequency).mask)) ]
    ∧ (∀ (v : Vocab) (i : Nat),
        (store_vocab_to_file v)[i]? = v.itos[i]?.map (fun tok => (i, tok))) :=
  ⟨rfl, (save_fields_to_vocab_spec _).2, rfl,
   fun v i => List.getElem?_enum v.itos i⟩

/-! ### Vocabulary-construction lemmas -/

theorem cntGet_foldl_cntUpdate (rows : List (List Token)) (c : Counter) (u : Token) :
    cntGet (rows.foldl cntUpdate c) u = cntGet c u + rows.flatten.count u := by
  induction rows generalizing c with
  | nil => simp
  | cons r rs ih =>
    simp only [List.foldl_cons, ih, cntGet_cntUpdate, List.flatten_cons,
      List.count_append]
    omega

theorem countAll_src_get (fields : Fields) (ds : List (List Example)) (u : Token)
    (hseq : fields.src.sequential = true) :
    cntGet (countAll fields ds).src u = occOf Example.src ds u := by
  have hex : ∀ (l : List Example) (c : Counters),
      cntGet ((l.foldl (countEx fields) c).src) u
        = cntGet c.src u + (l.map (fun ex => ex.src.count u)).sum := by
    intro l
    induction l with
    | nil => intro c; simp
    | cons ex xs ih =>
      intro c
      simp only [List.foldl_cons, ih, countEx, hseq, if_pos, cntGet_cntUpdate,
        List.map_cons, List.sum_cons]
      omega
  have hds : ∀ (dss : List (List Example)) (c : Counters),
      cntGet ((dss.foldl (fun acc d => d.foldl (countEx fields) acc) c).src) u
        = cntGet c.src u + ((dss.flatMap id).map (fun ex => ex.src.count u)).sum := by
    intro dss
    induction dss with
    | nil => intro c; simp
    | cons d rest ih =>
      intro c
      simp only [List.foldl_cons, ih, hex, List.flatMap_cons, List.map_append,
        List.sum_append, id]
      omega
  unfold countAll occOf
  rw [hds]
  simp [emptyCounters, cntGet]

theorem countAll_tgt_get (fields : Fields) (ds : List (List Example)) (u : Token)
    (hseq : fields.tgt.sequential = true) :
    cntGet (countAll fields ds).tgt u = occOf Example.tgt ds u := by
  have hex : ∀ (l : List Example) (c : Counters),
      cntGet ((l.foldl (countEx fields) c).tgt) u
        = cntGet c.tgt u + (l.map (fun ex => ex.tgt.count u)).sum := by
    intro l
    induction l with
    | nil => intro c; simp
    | cons ex xs ih =>
      intro c
      simp only [List.foldl_cons, ih, countEx, hseq, if_pos, cntGet_cntUpdate,
        List.map_cons, List.sum_cons]
      omega
  have hds : ∀ (dss : List (List Example)) (c : Counters),
      cntGet ((dss.foldl (fun acc d => d.foldl (countEx fields) acc) c).tgt) u
        = cntGet c.tgt u + ((dss.flatMap id).map (fun ex => ex.tgt.count u)).sum := by
    intro dss
    induction dss with
    | nil => intro c; simp
    | cons d rest ih =>
      intro c
      simp only [List.foldl_cons, ih, hex, List.flatMap_cons, List.map_append,
        List.sum_append, id]
      omega
  unfold countAll occOf
  rw [hds]
  simp [emptyCounters, cntGet]

theorem countAll_struc_get (fields : Fields) (ds : List (List Example)) (u : Token)
    (hseq : fields.struc.sequential = true) :
    cntGet (countAll fields ds).struc u
      = occOf (fun ex => ex.struc.flatten) ds u := by
  have hex : ∀ (l : List Example) (c : Counters),
      cntGet ((l.foldl (countEx fields) c).struc) u
        = cntGet c.struc u + (l.map (fun ex => ex.struc.flatten.count u)).sum := by
    intro l
    induction l with
    | nil => intro c; simp
    | cons ex xs ih =>
      intro c
      simp only [List.foldl_cons, ih, countEx, hseq, if_pos,
        cntGet_foldl_cntUpdate, List.map_cons, List.sum_cons]
      omega
  have hds : ∀ (dss : List (List Example)) (c : Counters),
      cntGet ((dss.foldl (fun acc d => d.foldl (countEx fields) acc) c).struc) u
        = cntGet c.struc u
          + ((dss.flatMap id).map (fun ex => ex.struc.flatten.count u)).sum := by
    intro dss
    induction dss with
    | nil => intro c; simp
    | cons d rest ih =>
      intro c
      simp only [List.foldl_cons, ih, hex, List.flatMap_cons, List.map_append,
        List.sum_append, id]
      omega
  unfold countAll occOf
  rw [hds]
  simp [emptyCounters, cntGet]

theorem countAll_mask_get (fields : Fields) (ds : List (List Example)) (u : Token)
    (hseq : fields.mask.sequential = true) :
    cntGet (countAll fields ds).mask u = occOf Example.mask ds u := by
  have hex : ∀ (l : List Example) (c : Counters),
      cntGet ((l.foldl (countEx fields) c).mask) u
        = cntGet c.mask u + (l.map (fun ex => ex.mask.count u)).sum := by
    intro l
    induction l with
    | nil => intro c; simp
    | cons ex xs ih =>
      intro c
      simp only [List.foldl_cons, ih, countEx, hseq, if_pos, cntGet_cntUpdate,
        List.map_cons, List.sum_cons]
      omega
  have hds : ∀ (dss : List (List Example)) (c : Counters),
      cntGet ((dss.foldl (fun acc d => d.foldl (countEx fields) acc) c).mask) u
        = cntGet c.mask u + ((dss.flatMap id).map (fun ex => ex.mask.count u)).sum := by
    intro dss
    induction dss with
    | nil => intro c; simp
    | cons d rest ih =>
      intro c
      simp only [List.foldl_cons, ih, hex, List.flatMap_cons, List.map_append,
        List.sum_append, id]
      omega
  unfold countAll occOf
  rw [hds]
  simp [emptyCounters, cntGet]

/-- Claim C2: with `share_vocab` enabled, `build_vocab` leaves the src and
tgt fields holding one and the same merged vocabulary; that vocabulary is
built from the element-wise `Counter` sum of the frequency tables of the
separately built src and tgt vocabularies (which are the raw counted
counters), with the four specials `UNK, PAD, BOS, EOS`, capped by
`src_vocab_size` and filtered by `src_words_min_frequency`; the tgt-side
limits do not influence the merged vocabulary. -/
theorem c2_share_vocab_merged (ds : List (List Example)) (fields : Fields)
    (src_vocab_size src_words_min_frequency tgt_vocab_size
     tgt_words_min_frequency structure_vocab_size
     structure_words_min_frequency : Nat) :
    (build_vocab ds fields true src_vocab_size src_words_min_frequency
        tgt_vocab_size tgt_words_min_frequency structure_vocab_size
        structure_words_min_frequency).src.vocab
      = (build_vocab ds fields true src_vocab_size src_words_min_frequency
          tgt_vocab_size tgt_words_min_frequency structure_vocab_size
          structure_words_min_frequency).tgt.vocab
    ∧ (build_vocab ds fields true src_vocab_size src_words_min_frequency
        tgt_vocab_size tgt_words_min_frequency structure_vocab_size
        structure_words_min_frequency).src.vocab
      = some (mkVocab
          (cntAdd (cntAdd [] (countAll fields ds).src) (countAll fields ds).tgt)
          [UNK_WORD, PAD_WORD, BOS_WORD, EOS_WORD]
          (some src_vocab_size) src_words_min_frequency)
    ∧ (vocabOf (build_field_vocab fields.src (countAll fields ds).src
        (some src_vocab_size) src_words_min_frequency)).freqs
      = (countAll fields ds).src
    ∧ (vocabOf (build_field_vocab fields.tgt (countAll fields ds).tgt
        (some tgt_vocab_size) tgt_words_min_frequency)).freqs
      = (countAll fields ds).tgt
    ∧ (∀ u, cntGet
          (cntAdd (cntAdd [] (countAll fields ds).src) (countAll fields ds).tgt) u
        = cntGet (vocabOf (build_field_vocab fields.src (countAll fields ds).src
            (some src_vocab_size) src_words_min_frequency)).freqs u
          + cntGet (vocabOf (build_field_vocab fields.tgt (countAll fields ds).tgt
              (some tgt_vocab_size) tgt_words_min_frequency)).freqs u)
    ∧ (∀ tgt_vocab_size' tgt_words_min_frequency',
        (build_vocab ds fields true src_vocab_size src_words_min_frequency
            tgt_vocab_size' tgt_words_min_frequency' structure_vocab_size
            structure_words_min_frequency).src.vocab
          = (build_vocab ds fields true src_vocab_size src_words_min_frequency
              tgt_vocab_size tgt_words_min_frequency structure_vocab_size
              structure_words_min_frequency).src.vocab) := by
  refine ⟨rfl, rfl, rfl, rfl, fun u => ?_, fun s' m' => rfl⟩
  rw [cntGet_cntAdd, cntGet_cntAdd]
  simp only [cntGet]
  have hsrcf : (vocabOf (build_field_vocab fields.src (countAll fields ds).src
      (some src_vocab_size) src_words_min_frequency)).freqs
      = (countAll fields ds).src := rfl
  have htgtf : (vocabOf (build_field_vocab fields.tgt (countAll fields ds).tgt
      (some tgt_vocab_size) tgt_words_min_frequency)).freqs
      = (countAll fields ds).tgt := rfl
  rw [hsrcf, htgtf]
  omega

/-- Counterexample to claim C3 as stated: with every configured vocabulary
size equal to 100 and every configured minimum frequency equal to 1, the
mask vocabulary still drops token 12 even though it occurs 5 times — the
mask field is not filtered by any configured parameter but by the
hard-coded `max_size=2, min_freq=0` of line 94. -/
theorem c3_counterexample :
    cntGet (countAll getFields [[c3ex]]).mask 12 = 5
    ∧ ((build_vocab [[c3ex]] getFields false 100 1 100 1 100 1).mask.vocab).map
        Vocab.itos = some [0, 1, 2, 3, 10, 11] := by
  constructor
  · decide
  · decide

/-- Amended claim C3: `build_vocab` builds the src, tgt and structure
vocabularies from the frequencies counted over the training shards, each
filtered by its own configured size/min-frequency parameters, but the mask
vocabulary is filtered with the hard-coded `max_size=2` and `min_freq=0`
rather than configured parameters; the counters record exactly the token
occurrence totals over the shards. -/
theorem c3_field_vocab_parameters (ds : List (List Example)) (fields : Fields)
    (src_vocab_size src_words_min_frequency tgt_vocab_size
     tgt_words_min_frequency structure_vocab_size
     structure_words_min_frequency : Nat)
    (hsrc : fields.src.sequential = true)
    (htgt : fields.tgt.sequential = true)
    (hstruc : fields.struc.sequential = true)
    (hmask : fields.mask.sequential = true) :
    (build_vocab ds fields false src_vocab_size src_words_min_frequency
        tgt_vocab_size tgt_words_min_frequency structure_vocab_size
        structure_words_min_frequency).src.vocab
      = some (mkVocab (countAll fields ds).src (fieldSpecials fields.src)
          (some src_vocab_size) src_words_min_frequency)
    ∧ (build_vocab ds fields false src_vocab_size src_words_min_frequency
        tgt_vocab_size tgt_words_min_frequency structure_vocab_size
        structure_words_min_frequency).tgt.vocab
      = some (mkVocab (countAll fields ds).tgt (fieldSpecials fields.tgt)
          (some tgt_vocab_size) tgt_words_min_frequency)
    ∧ (build_vocab ds fields false src_vocab_size src_words_min_frequency
        tgt_vocab_size tgt_words_min_frequency structure_vocab_size
        structure_words_min_frequency).struc.vocab
      = some (mkVocab (countAll fields ds).struc (fieldSpecials fields.struc)
          (some structure_vocab_size) structure_words_min_frequency)
    ∧ (build_vocab ds fields false src_vocab_size src_words_min_frequency
        tgt_vocab_size tgt_words_min_frequency structure_vocab_size
        structure_words_min_frequency).mask.vocab
      = some (mkVocab (countAll fields ds).mask (fieldSpecials fields.mask)
          (some 2) 0)
    ∧ (∀ u, cntGet (countAll fields ds).src u = occOf Example.src ds u)
    ∧ (∀ u, cntGet (countAll fields ds).tgt u = occOf Example.tgt ds u)
    ∧ (∀ u, cntGet (countAll fields ds).struc u
        = occOf (fun ex => ex.struc.flatten) ds u)
    ∧ (∀ u, cntGet (countAll fields ds).mask u = occOf Example.mask ds u) :=
  ⟨rfl, rfl, rfl, rfl,
   fun u => countAll_src_get fields ds u hsrc,
   fun u => countAll_tgt_get fields ds u htgt,
   fun u => countAll_struc_get fields ds u hstruc,
   fun u => countAll_mask_get fields ds u hmask⟩

/-- Witness for the amended claim C3 at `getFields` and the counterexample
corpus. -/
theorem c3_field_vocab_parameters_witness :
    getFields.src.sequential = true
    ∧ (build_vocab [[c3ex]] getFields false 100 1 100 1 100 1).mask.vocab
      = some (mkVocab (countAll getFields [[c3ex]]).mask
          (fieldSpecials getFields.mask) (some 2) 0)
    ∧ cntGet (countAll getFields [[c3ex]]).mask 10 = occOf Example.mask [[c3ex]] 10 := by
  have h := c3_field_vocab_parameters [[c3ex]] getFields 100 1 100 1 100 1
    rfl rfl rfl rfl
  exact ⟨rfl, h.2.2.2.1, h.2.2.2.2.2.2.2 10⟩

/-! ### Assertion behaviour of build_save_dataset and main -/

/-- Claim C7: `build_save_dataset` fails with its corpus-type assertion for
every corpus type other than `train` and `valid`, and `main` fails with the
shuffle `AssertionError` whenever `shuffle > 0`; both failures are error
results carrying no dataset or vocabulary output, so nothing is written. -/
theorem c7_simple_assertions :
    (∀ (corpus_type : String) (fields : Fields) (opt : Opt),
        corpus_type ≠ "train" → corpus_type ≠ "valid" →
        build_save_dataset corpus_type fields opt = .error .badCorpusType)
    ∧ (∀ opt : Opt, opt.shuffle > 0 →
        main opt = .error .shuffleNotImplemented) := by
  constructor
  · intro ct fields opt h1 h2
    unfold build_save_dataset
    rw [if_neg]
    push_neg
    exact ⟨h1, h2⟩
  · intro opt h
    unfold main
    rw [if_pos h]

/-- Witness for C7 at corpus type `"test"` and at `sampleOpt` with
`shuffle = 1`. -/
theorem c7_simple_assertions_witness :
    ("test" : String) ≠ "train"
    ∧ ("test" : String) ≠ "valid"
    ∧ build_save_dataset "test" getFields sampleOpt = .error .badCorpusType
    ∧ ({ sampleOpt with shuffle := 1 } : Opt).shuffle > 0
    ∧ main { sampleOpt with shuffle := 1 } = .error .shuffleNotImplemented := by
  refine ⟨by decide, by decide, ?_, by decide, ?_⟩
  · exact c7_simple_assertions.1 "test" getFields sampleOpt (by decide) (by decide)
  · exact c7_simple_assertions.2 { sampleOpt with shuffle := 1 } (by decide)

/-! ### Sorting and shard-output lemmas -/

theorem insSorted_length (le : α → α → Bool) (x : α) (l : List α) :
    (insSorted le x l).length = l.length + 1 := by
  induction l with
  | nil => rfl
  | cons y ys ih =>
    unfold insSorted
    by_cases h : le y x
    · simp only [h, if_true, List.length_cons, ih]
    · simp [h]

theorem foldl_insSorted_length (le : α → α → Bool) (l acc : List α) :
    (l.foldl (fun a x => insSorted le x a) acc).length = acc.length + l.length := by
  induction l generalizing acc with
  | nil => simp
  | cons x xs ih =>
    simp only [List.foldl_cons, ih, insSorted_length, List.length_cons]
    omega

theorem ssort_length (le : α → α → Bool) (l : List α) :
    (ssort le l).length = l.length := by
  unfold ssort
  rw [foldl_insSorted_length]
  simp

theorem mem_insSorted (le : α → α → Bool) (x y : α) (l : List α) :
    y ∈ insSorted le x l ↔ y = x ∨ y ∈ l := by
  induction l with
  | nil => simp [insSorted]
  | cons z zs ih =>
    unfold insSorted
    by_cases h : le z x
    · simp [h, ih]
      try tauto
    · simp [h]
      try tauto

theorem mem_foldl_insSorted (le : α → α → Bool) (l acc : List α) (y : α) :
    y ∈ l.foldl (fun a x => insSorted le x a) acc ↔ y ∈ acc ∨ y ∈ l := by
  induction l generalizing acc with
  | nil => simp
  | cons x xs ih =>
    simp only [List.foldl_cons, ih, mem_insSorted, List.mem_cons]
    tauto

theorem mem_ssort (le : α → α → Bool) (l : List α) (y : α) :
    y ∈ ssort le l ↔ y ∈ l := by
  unfold ssort
  rw [mem_foldl_insSorted]
  simp

theorem mem_zip4 {α β γ δ : Type} {a : List α} {b : List β} {c : List γ}
    {d : List δ} {q : α × β × γ × δ} (h : q ∈ zip4 a b c d) :
    q.1 ∈ a ∧ q.2.1 ∈ b ∧ q.2.2.1 ∈ c ∧ q.2.2.2 ∈ d := by
  induction a generalizing b c d with
  | nil => cases b <;> cases c <;> cases d <;> simp [zip4] at h
  | cons x xs ih =>
    cases b with
    | nil => simp [zip4] at h
    | cons yb bs =>
      cases c with
      | nil => simp [zip4] at h
      | cons zc cs =>
        cases d with
        | nil => simp [zip4] at h
        | cons wd ds =>
          rcases List.mem_cons.mp h with hq | hq
          · subst hq; simp
          · have hx := ih hq
            simp only [List.mem_cons]
            tauto

theorem mem_zip4_flatMap (a b c d : List α)
    (hb : b.length = a.length) (hc : c.length = a.length)
    (hd : d.length = a.length) (y : α) :
    y ∈ (zip4 a b c d).flatMap (fun q => [q.1, q.2.1, q.2.2.1, q.2.2.2])
      ↔ y ∈ a ∨ y ∈ b ∨ y ∈ c ∨ y ∈ d := by
  induction a generalizing b c d with
  | nil => cases b <;> cases c <;> cases d <;> simp_all [zip4]
  | cons x xs ih =>
    cases b with
    | nil => simp at hb
    | cons yb bs =>
      cases c with
      | nil => simp at hc
      | cons zc cs =>
        cases d with
        | nil => simp at hd
        | cons wd ds =>
          have ihh := ih bs cs ds (by simpa using hb) (by simpa using hc)
            (by simpa using hd)
          simp only [zip4, List.flatMap_cons, List.mem_append, List.mem_cons,
            List.not_mem_nil, or_false, ihh]
          tauto

theorem enum_map_fn (l : List α) (g : Nat → β) :
    l.enum.map (fun p => g p.1) = (List.range l.length).map g := by
  rw [← List.enum_map_fst l, List.map_map]
  rfl

theorem shards_length_eq (data : List α) (S : Nat) :
    (shards data S).length
      = data.length / S + (if data.length / S * S < data.length then 1 else 0) := by
  unfold shards
  simp only [List.length_append, List.length_map, List.length_range]
  congr 1
  split <;> simp

theorem shards_length_congr (data data' : List α) (S : Nat)
    (h : data.length = data'.length) :
    (shards data S).length = (shards data' S).length := by
  rw [shards_length_eq, shards_length_eq, h]

theorem shardWrites_map_fst (corpus : String) (data : List Line) (S : Nat) :
    (shardWrites corpus data S).map Prod.fst
      = (List.range (shards data S).length).map (txtName corpus) := by
  unfold shardWrites
  rw [List.map_map]
  have hfun : (Prod.fst ∘ fun p : Nat × List Line => (txtName corpus p.1, p.2))
      = (fun p : Nat × List Line => txtName corpus p.1) := rfl
  rw [hfun]
  exact enum_map_fn _ _

theorem readCorpora_ok_spec (srcL tgtL stL mL : List Line) (s t st m : List Line)
    (hok : readCorpora srcL tgtL stL mL = .ok (s, t, st, m)) :
    s = srcL.take (zip4 srcL tgtL stL mL).length
    ∧ t = tgtL.take (zip4 srcL tgtL stL mL).length
    ∧ st = stL.take (zip4 srcL tgtL stL mL).length
    ∧ m = mL.take (zip4 srcL tgtL stL mL).length
    ∧ s.length = (zip4 srcL tgtL stL mL).length
    ∧ t.length = (zip4 srcL tgtL stL mL).length
    ∧ st.length = (zip4 srcL tgtL stL mL).length
    ∧ m.length = (zip4 srcL tgtL stL mL).length := by
  unfold readCorpora at hok
  rw [readLoop_eq] at hok
  by_cases hall : (zip4 srcL tgtL stL mL).all
      (fun q => exampleOk q.1 q.2.1 q.2.2.1 q.2.2.2) = true
  · rw [if_pos hall] at hok
    injection hok with hok
    have hs := congrArg (fun p => p.1) hok
    have ht := congrArg (fun p => p.2.1) hok
    have hst := congrArg (fun p => p.2.2.1) hok
    have hm := congrArg (fun p => p.2.2.2) hok
    simp only at hs ht hst hm
    subst hs; subst ht; subst hst; subst hm
    have hcomp := zip4_components srcL tgtL stL mL
    exact ⟨hcomp.1, hcomp.2.1, hcomp.2.2.1, hcomp.2.2.2,
      by simp, by simp, by simp, by simp⟩
  · rw [if_neg hall] at hok
    exact Except.noConfusion hok

theorem build_shards_ok_elim
    (srcC tgtC stC mC : Corpus) (fields : Fields) (ct : String) (opt : Opt)
    (out : DatasetsOut)
    (hok : build_save_in_shards_using_shards_size srcC tgtC stC mC fields
      ct opt = .ok out) :
    ∃ s t st m,
      readCorpora srcC.lines tgtC.lines stC.lines mC.lines = .ok (s, t, st, m)
      ∧ out = shardsOut srcC tgtC stC mC ct opt s t st m := by
  unfold build_save_in_shards_using_shards_size at hok
  split at hok
  · exact Except.noConfusion hok
  · rename_i s t st m heq
    split at hok
    · exact Except.noConfusion hok
    · injection hok with hok
      exact ⟨s, t, st, m, heq, hok.symm⟩

theorem shardsOut_spec (srcC tgtC stC mC : Corpus) (ct : String) (opt : Opt)
    (s t st m : List Line)
    (h1 : s.length = t.length) (h2 : t.length = st.length)
    (h3 : st.length = m.length) :
    (shardsOut srcC tgtC stC mC ct opt s t st m).retList
        = (List.range (shardsOut srcC tgtC stC mC ct opt s t st m).retList.length).map
            (pt_name opt.save_data ct)
    ∧ (shardsOut srcC tgtC stC mC ct opt s t st m).retList.length
        = (shardsOut srcC tgtC stC mC ct opt s t st m).datasets.length
    ∧ (∀ f, f ∈ (shardsOut srcC tgtC stC mC ct opt s t st m).txtRemoved
        ↔ f ∈ (shardsOut srcC tgtC stC mC ct opt s t st m).txtWrites.map Prod.fst) := by
  unfold shardsOut
  simp only
  refine ⟨?_, ?_, ?_⟩
  · rw [enum_map_fn]
    simp
  · simp
  · intro f
    have hlen4 : ∀ (cp : String) (data : List Line),
        (ssort strLe ((shardWrites cp data opt.shard_size.toNat).map
          Prod.fst)).length
        = (shards data opt.shard_size.toNat).length := by
      intro cp data
      rw [ssort_length, List.length_map]
      unfold shardWrites
      rw [List.length_map, List.enum_length]
    have hLt := (hlen4 tgtC.path t).trans
      ((shards_length_congr t s _ h1.symm).trans (hlen4 srcC.path s).symm)
    have hLst := (hlen4 stC.path st).trans
      ((shards_length_congr st s _ (h1.trans h2).symm).trans
        (hlen4 srcC.path s).symm)
    have hLm := (hlen4 mC.path m).trans
      ((shards_length_congr m s _ ((h1.trans h2).trans h3).symm).trans
        (hlen4 srcC.path s).symm)
    rw [mem_zip4_flatMap _ _ _ _ hLt hLst hLm f]
    simp only [mem_ssort, List.map_append, List.mem_append]
    tauto

/-- Claim C6: on success the sharding function returns exactly the list of
persisted shard dataset paths `"{save_data}_{corpus_type}.{index}.pt"`, one
per built shard in index order, and the set of text files it removes is the
set of intermediate `.{x}.txt` files it created; with a non-positive
`shard_size`, `build_save_dataset` instead returns the single monolithic
path `"{save_data}_{corpus_type}.pt"` with no text files created or
removed. -/
theorem c6_shard_paths_and_cleanup :
    (∀ (srcC tgtC stC mC : Corpus) (fields : Fields) (ct : String) (opt : Opt)
        (out : DatasetsOut),
        build_save_in_shards_using_shards_size srcC tgtC stC mC fields ct opt
          = .ok out →
        out.retList = (List.range out.retList.length).map
            (pt_name opt.save_data ct)
        ∧ out.retList.length = out.datasets.length
        ∧ (∀ f, f ∈ out.txtRemoved ↔ f ∈ out.txtWrites.map Prod.fst))
    ∧ (∀ (ct : String) (fields : Fields) (opt : Opt),
        (ct = "train" ∨ ct = "valid") → opt.shard_size ≤ 0 →
        build_save_dataset ct fields opt
          = .ok { txtWrites := [],
                  retList := [opt.save_data ++ "_" ++ ct ++ ".pt"],
                  datasets := [build_dataset
                    (if ct = "train" then opt.train_src else opt.valid_src).lines
                    (if ct = "train" then opt.train_tgt else opt.valid_tgt).lines
                    (if ct = "train" then opt.train_structure else opt.valid_structure).lines
                    (if ct = "train" then opt.train_mask else opt.valid_mask).lines],
                  txtRemoved := [] }) := by
  constructor
  · intro srcC tgtC stC mC fields ct opt out hok
    obtain ⟨s, t, st, m, hread, hout⟩ :=
      build_shards_ok_elim srcC tgtC stC mC fields ct opt out hok
    obtain ⟨-, -, -, -, hs, ht, hst, hm⟩ :=
      readCorpora_ok_spec srcC.lines tgtC.lines stC.lines mC.lines s t st m hread
    subst hout
    exact shardsOut_spec srcC tgtC stC mC ct opt s t st m (by omega) (by omega)
      (by omega)
  · intro ct fields opt hct hsz
    unfold build_save_dataset
    rw [if_pos hct, if_neg (by omega)]

/-- Witness for C6: the three-line training corpus with shard size 2 yields
the two shard paths and removes exactly the eight created text files, and a
zero shard size yields the single monolithic valid path. -/
theorem c6_shard_paths_and_cleanup_witness :
    build_save_in_shards_using_shards_size ⟨"ts", [[10], [12], [13]]⟩
        ⟨"tt", [[11], [14], [15]]⟩ ⟨"tst", [[5, 5, 5, 5], [5, 5, 5, 5], [5, 5, 5, 5]]⟩
        ⟨"tm", [[6], [6], [6]]⟩ getFields "train" { sampleOpt with shard_size := 2 }
      = .ok outW
    ∧ (outW.retList = (List.range outW.retList.length).map (pt_name "gq" "train")
        ∧ outW.retList.length = outW.datasets.length
        ∧ (∀ f, f ∈ outW.txtRemoved ↔ f ∈ outW.txtWrites.map Prod.fst))
    ∧ (("valid" = "train" ∨ ("valid" : String) = "valid")
        ∧ ({ sampleOpt with shard_size := 0 } : Opt).shard_size ≤ 0
        ∧ build_save_dataset "valid" getFields { sampleOpt with shard_size := 0 }
          = .ok { txtWrites := [],
                  retList := ["gq_valid.pt"],
                  datasets := [build_dataset [[20]] [[21]] [[5, 5, 5, 5]] [[6]]],
                  txtRemoved := [] }) := by
  refine ⟨by decide, ?_, Or.inr rfl, by decide, ?_⟩
  · exact c6_shard_paths_and_cleanup.1 ⟨"ts", [[10], [12], [13]]⟩
      ⟨"tt", [[11], [14], [15]]⟩ ⟨"tst", [[5, 5, 5, 5], [5, 5, 5, 5], [5, 5, 5, 5]]⟩
      ⟨"tm", [[6], [6], [6]]⟩ getFields "train" { sampleOpt with shard_size := 2 }
      outW (by decide)
  · exact c6_shard_paths_and_cleanup.2 "valid" getFields
      { sampleOpt with shard_size := 0 } (Or.inr rfl) (by decide)

/-! ### Token provenance lemmas -/

theorem keys_cntIncr (c : Counter) (t u : Token) (n : Nat)
    (h : (u, n) ∈ cntIncr c t) : (∃ m, (u, m) ∈ c) ∨ u = t := by
  induction c with
  | nil =>
    simp [cntIncr] at h
    right
    exact h.1
  | cons q rest ih =>
    unfold cntIncr at h
    by_cases hq : q.1 = t
    · rw [if_pos hq] at h
      rcases List.mem_cons.mp h with h | h
      · right
        have : u = q.1 := by
          have := congrArg Prod.fst h
          simpa using this
        exact this.trans hq
      · exact Or.inl ⟨n, List.mem_cons_of_mem _ h⟩
    · rw [if_neg hq] at h
      rcases List.mem_cons.mp h with h | h
      · exact Or.inl ⟨n, h ▸ List.mem_cons_self _ _⟩
      · rcases ih h with ⟨m, hm⟩ | ht
        · exact Or.inl ⟨m, List.mem_cons_of_mem _ hm⟩
        · exact Or.inr ht

theorem keys_cntUpdate (c : Counter) (ts : List Token) (u : Token) (n : Nat)
    (h : (u, n) ∈ cntUpdate c ts) : (∃ m, (u, m) ∈ c) ∨ u ∈ ts := by
  induction ts generalizing c n with
  | nil => exact Or.inl ⟨n, h⟩
  | cons t ts ih =>
    rcases ih (cntIncr c t) n h with ⟨m, hm⟩ | ht
    · rcases keys_cntIncr c t u m hm with ⟨m', hm'⟩ | hu
      · exact Or.inl ⟨m', hm'⟩
      · exact Or.inr (hu ▸ List.mem_cons_self _ _)
    · exact Or.inr (List.mem_cons_of_mem _ ht)

theorem keys_foldl_cntUpdate (rows : List (List Token)) (c : Counter)
    (u : Token) (n : Nat) (h : (u, n) ∈ rows.foldl cntUpdate c) :
    (∃ m, (u, m) ∈ c) ∨ u ∈ rows.flatten := by
  induction rows generalizing c n with
  | nil => exact Or.inl ⟨n, h⟩
  | cons r rs ih =>
    rcases ih (cntUpdate c r) n h with ⟨m, hm⟩ | hu
    · rcases keys_cntUpdate c r u m hm with ⟨m', hm'⟩ | hu
      · exact Or.inl ⟨m', hm'⟩
      · exact Or.inr (by simp [hu])
    · exact Or.inr (by simp [hu])

theorem keys_cntAdd (a b : Counter) (u : Token) (n : Nat)
    (h : (u, n) ∈ cntAdd a b) :
    (∃ m, (u, m) ∈ a) ∨ (∃ m, (u, m) ∈ b) := by
  unfold cntAdd at h
  rcases List.mem_append.mp h with h | h
  · rcases List.mem_map.mp h with ⟨p, hp, heq⟩
    have hu : u = p.1 := by
      have := congrArg Prod.fst heq
      simpa using this.symm
    exact Or.inl ⟨p.2, hu ▸ hp⟩
  · exact Or.inr ⟨n, (List.mem_filter.mp h).1⟩

theorem mem_vocabWords (c : Counter) (sp : List Token) (p : Token × Nat)
    (h : p ∈ vocabWords c sp) : p ∈ c := by
  unfold vocabWords at h
  rw [mem_ssort, mem_ssort] at h
  exact (List.mem_filter.mp h).1

theorem mem_addWords (minF : Nat) (maxS : Option Nat) (itos : List Token)
    (ws : List (Token × Nat)) (tok : Token)
    (h : tok ∈ addWords minF maxS itos ws) :
    tok ∈ itos ∨ ∃ n, (tok, n) ∈ ws := by
  induction ws generalizing itos with
  | nil => exact Or.inl h
  | cons w rest ih =>
    rcases w with ⟨w, f⟩
    unfold addWords at h
    by_cases hc : f < minF ∨ maxS = some itos.length
    · rw [if_pos hc] at h
      exact Or.inl h
    · rw [if_neg hc] at h
      rcases ih (itos ++ [w]) h with hi | ⟨n, hn⟩
      · rcases List.mem_append.mp hi with hi | hi
        · exact Or.inl hi
        · have : tok = w := by simpa using hi
          exact Or.inr ⟨f, this ▸ List.mem_cons_self _ _⟩
      · exact Or.inr ⟨n, List.mem_cons_of_mem _ hn⟩

theorem mkVocab_itos_mem (c : Counter) (sp : List Token) (sz : Option Nat)
    (mf : Nat) (tok : Token) (h : tok ∈ (mkVocab c sp sz mf).itos) :
    tok ∈ sp ∨ ∃ n, (tok, n) ∈ c := by
  unfold mkVocab at h
  simp only at h
  rcases mem_addWords _ _ _ _ _ h with hi | ⟨n, hn⟩
  · exact Or.inl hi
  · exact Or.inr ⟨n, mem_vocabWords c sp (tok, n) hn⟩

theorem keys_countAll_src (fields : Fields) (ds : List (List Example))
    (u : Token) (n : Nat) (h : (u, n) ∈ (countAll fields ds).src) :
    ∃ d ∈ ds, ∃ ex ∈ d, u ∈ ex.src := by
  have hex : ∀ (l : List Example) (c : Counters) (n : Nat),
      (u, n) ∈ ((l.foldl (countEx fields) c).src) →
      (∃ m, (u, m) ∈ c.src) ∨ ∃ ex ∈ l, u ∈ ex.src := by
    intro l
    induction l with
    | nil => intro c n h; exact Or.inl ⟨n, h⟩
    | cons ex xs ih =>
      intro c n h
      rcases ih (countEx fields c ex) n h with ⟨m, hm⟩ | ⟨ex', hex', hu⟩
      · simp only [countEx] at hm
        by_cases hs : fields.src.sequential
        · rw [if_pos hs] at hm
          rcases keys_cntUpdate c.src ex.src u m hm with ⟨m', hm'⟩ | hu
          · exact Or.inl ⟨m', hm'⟩
          · exact Or.inr ⟨ex, List.mem_cons_self _ _, hu⟩
        · rw [if_neg hs] at hm
          exact Or.inl ⟨m, hm⟩
      · exact Or.inr ⟨ex', List.mem_cons_of_mem _ hex', hu⟩
  have hds : ∀ (dss : List (List Example)) (c : Counters) (n : Nat),
      (u, n) ∈ ((dss.foldl (fun acc d => d.foldl (countEx fields) acc) c).src) →
      (∃ m, (u, m) ∈ c.src) ∨ ∃ d ∈ dss, ∃ ex ∈ d, u ∈ ex.src := by
    intro dss
    induction dss with
    | nil => intro c n h; exact Or.inl ⟨n, h⟩
    | cons d rest ih =>
      intro c n h
      rcases ih (d.foldl (countEx fields) c) n h with ⟨m, hm⟩ | ⟨d', hd', hex'⟩
      · rcases hex d c m hm with ⟨m', hm'⟩ | ⟨ex, hexm, hu⟩
        · exact Or.inl ⟨m', hm'⟩
        · exact Or.inr ⟨d, List.mem_cons_self _ _, ex, hexm, hu⟩
      · exact Or.inr ⟨d', List.mem_cons_of_mem _ hd', hex'⟩
  rcases hds ds emptyCounters n h with ⟨m, hm⟩ | hok
  · simp [emptyCounters] at hm
  · exact hok

theorem keys_countAll_tgt (fields : Fields) (ds : List (List Example))
    (u : Token) (n : Nat) (h : (u, n) ∈ (countAll fields ds).tgt) :
    ∃ d ∈ ds, ∃ ex ∈ d, u ∈ ex.tgt := by
  have hex : ∀ (l : List Example) (c : Counters) (n : Nat),
      (u, n) ∈ ((l.foldl (countEx fields) c).tgt) →
      (∃ m, (u, m) ∈ c.tgt) ∨ ∃ ex ∈ l, u ∈ ex.tgt := by
    intro l
    induction l with
    | nil => intro c n h; exact Or.inl ⟨n, h⟩
    | cons ex xs ih =>
      intro c n h
      rcases ih (countEx fields c ex) n h with ⟨m, hm⟩ | ⟨ex', hex', hu⟩
      · simp only [countEx] at hm
        by_cases hs : fields.tgt.sequential
        · rw [if_pos hs] at hm
          rcases keys_cntUpdate c.tgt ex.tgt u m hm with ⟨m', hm'⟩ | hu
          · exact Or.inl ⟨m', hm'⟩
          · exact Or.inr ⟨ex, List.mem_cons_self _ _, hu⟩
        · rw [if_neg hs] at hm
          exact Or.inl ⟨m, hm⟩
      · exact Or.inr ⟨ex', List.mem_cons_of_mem _ hex', hu⟩
  have hds : ∀ (dss : List (List Example)) (c : Counters) (n : Nat),
      (u, n) ∈ ((dss.foldl (fun acc d => d.foldl (countEx fields) acc) c).tgt) →
      (∃ m, (u, m) ∈ c.tgt) ∨ ∃ d ∈ dss, ∃ ex ∈ d, u ∈ ex.tgt := by
    intro dss
    induction dss with
    | nil => intro c n h; exact Or.inl ⟨n, h⟩
    | cons d rest ih =>
      intro c n h
      rcases ih (d.foldl (countEx fields) c) n h with ⟨m, hm⟩ | ⟨d', hd', hex'⟩
      · rcases hex d c m hm with ⟨m', hm'⟩ | ⟨ex, hexm, hu⟩
        · exact Or.inl ⟨m', hm'⟩
        · exact Or.inr ⟨d, List.mem_cons_self _ _, ex, hexm, hu⟩
      · exact Or.inr ⟨d', List.mem_cons_of_mem _ hd', hex'⟩
  rcases hds ds emptyCounters n h with ⟨m, hm⟩ | hok
  · simp [emptyCounters] at hm
  · exact hok

theorem keys_countAll_struc (fields : Fields) (ds : List (List Example))
    (u : Token) (n : Nat) (h : (u, n) ∈ (countAll fields ds).struc) :
    ∃ d ∈ ds, ∃ ex ∈ d, u ∈ ex.struc.flatten := by
  have hex : ∀ (l : List Example) (c : Counters) (n : Nat),
      (u, n) ∈ ((l.foldl (countEx fields) c).struc) →
      (∃ m, (u, m) ∈ c.struc) ∨ ∃ ex ∈ l, u ∈ ex.struc.flatten := by
    intro l
    induction l with
    | nil => intro c n h; exact Or.inl ⟨n, h⟩
    | cons ex xs ih =>
      intro c n h
      rcases ih (countEx fields c ex) n h with ⟨m, hm⟩ | ⟨ex', hex', hu⟩
      · simp only [countEx] at hm
        by_cases hs : fields.struc.sequential
        · rw [if_pos hs] at hm
          rcases keys_foldl_cntUpdate ex.struc c.struc u m hm with ⟨m', hm'⟩ | hu
          · exact Or.inl ⟨m', hm'⟩
          · exact Or.inr ⟨ex, List.mem_cons_self _ _, hu⟩
        · rw [if_neg hs] at hm
          exact Or.inl ⟨m, hm⟩
      · exact Or.inr ⟨ex', List.mem_cons_of_mem _ hex', hu⟩
  have hds : ∀ (dss : List (List Example)) (c : Counters) (n : Nat),
      (u, n) ∈ ((dss.foldl (fun acc d => d.foldl (countEx fields) acc) c).struc) →
      (∃ m, (u, m) ∈ c.struc) ∨ ∃ d ∈ dss, ∃ ex ∈ d, u ∈ ex.struc.flatten := by
    intro dss
    induction dss with
    | nil => intro c n h; exact Or.inl ⟨n, h⟩
    | cons d rest ih =>
      intro c n h
      rcases ih (d.foldl (countEx fields) c) n h with ⟨m, hm⟩ | ⟨d', hd', hex'⟩
      · rcases hex d c m hm with ⟨m', hm'⟩ | ⟨ex, hexm, hu⟩
        · exact Or.inl ⟨m', hm'⟩
        · exact Or.inr ⟨d, List.mem_cons_self _ _, ex, hexm, hu⟩
      · exact Or.inr ⟨d', List.mem_cons_of_mem _ hd', hex'⟩
  rcases hds ds emptyCounters n h with ⟨m, hm⟩ | hok
  · simp [emptyCounters] at hm
  · exact hok

theorem keys_countAll_mask (fields : Fields) (ds : List (List Example))
    (u : Token) (n : Nat) (h : (u, n) ∈ (countAll fields ds).mask) :
    ∃ d ∈ ds, ∃ ex ∈ d, u ∈ ex.mask := by
  have hex : ∀ (l : List Example) (c : Counters) (n : Nat),
      (u, n) ∈ ((l.foldl (countEx fields) c).mask) →
      (∃ m, (u, m) ∈ c.mask) ∨ ∃ ex ∈ l, u ∈ ex.mask := by
    intro l
    induction l with
    | nil => intro c n h; exact Or.inl ⟨n, h⟩
    | cons ex xs ih =>
      intro c n h
      rcases ih (countEx fields c ex) n h with ⟨m, hm⟩ | ⟨ex', hex', hu⟩
      · simp only [countEx] at hm
        by_cases hs : fields.mask.sequential
        · rw [if_pos hs] at hm
          rcases keys_cntUpdate c.mask ex.mask u m hm with ⟨m', hm'⟩ | hu
          · exact Or.inl ⟨m', hm'⟩
          · exact Or.inr ⟨ex, List.mem_cons_self _ _, hu⟩
        · rw [if_neg hs] at hm
          exact Or.inl ⟨m, hm⟩
      · exact Or.inr ⟨ex', List.mem_cons_of_mem _ hex', hu⟩
  have hds : ∀ (dss : List (List Example)) (c : Counters) (n : Nat),
      (u, n) ∈ ((dss.foldl (fun acc d => d.foldl (countEx fields) acc) c).mask) →
      (∃ m, (u, m) ∈ c.mask) ∨ ∃ d ∈ dss, ∃ ex ∈ d, u ∈ ex.mask := by
    intro dss
    induction dss with
    | nil => intro c n h; exact Or.inl ⟨n, h⟩
    | cons d rest ih =>
      intro c n h
      rcases ih (d.foldl (countEx fields) c) n h with ⟨m, hm⟩ | ⟨d', hd', hex'⟩
      · rcases hex d c m hm with ⟨m', hm'⟩ | ⟨ex, hexm, hu⟩
        · exact Or.inl ⟨m', hm'⟩
        · exact Or.inr ⟨d, List.mem_cons_self _ _, ex, hexm, hu⟩
      · exact Or.inr ⟨d', List.mem_cons_of_mem _ hd', hex'⟩
  rcases hds ds emptyCounters n h with ⟨m, hm⟩ | hok
  · simp [emptyCounters] at hm
  · exact hok

theorem lookup_mem {β : Type} (l : List (String × β)) (nm : String) (v : β)
    (h : l.lookup nm = some v) : (nm, v) ∈ l := by
  induction l with
  | nil => simp [List.lookup] at h
  | cons p rest ih =>
    rcases p with ⟨k, w⟩
    unfold List.lookup at h
    cases hk : nm == k with
    | true =>
      rw [hk] at h
      simp only at h
      injection h with h
      subst h
      have hkk : nm = k := by simpa using hk
      subst hkk
      exact List.mem_cons_self _ _
    | false =>
      rw [hk] at h
      simp only at h
      exact List.mem_cons_of_mem _ (ih h)

theorem shardWrites_content_mem (corpus : String) (data : List Line) (S : Nat)
    (nm : String) (content : List Line)
    (h : (nm, content) ∈ shardWrites corpus data S) :
    ∀ line ∈ content, line ∈ data := by
  unfold shardWrites at h
  rcases List.mem_map.mp h with ⟨p, hp, heq⟩
  have h2 : p.2 ∈ shards data S := List.snd_mem_of_mem_enum hp
  intro line hline
  have hcontent : content = p.2 := by
    have := congrArg Prod.snd heq
    simpa using this.symm
  rw [hcontent] at hline
  have hfl : line ∈ (shards data S).flatten := List.mem_flatten.mpr ⟨p.2, h2, hline⟩
  rwa [shards_flatten] at hfl

theorem build_dataset_components (a b c d : List Line) (ex : Example)
    (hex : ex ∈ build_dataset a b c d) :
    ex.src ∈ a ∧ ex.tgt ∈ b ∧ ex.struc.flatten ∈ c ∧ ex.mask ∈ d := by
  unfold build_dataset at hex
  rcases List.mem_map.mp hex with ⟨q, hq, heq⟩
  have hc := mem_zip4 hq
  subst heq
  refine ⟨hc.1, hc.2.1, ?_, hc.2.2.2⟩
  simp only
  rw [shards_flatten]
  exact hc.2.2.1

theorem shardsOut_dataset_lines (srcC tgtC stC mC : Corpus) (ct : String)
    (opt : Opt) (s t st m : List Line) (d : List Example)
    (hd : d ∈ (shardsOut srcC tgtC stC mC ct opt s t st m).datasets)
    (ex : Example) (hex : ex ∈ d) :
    (ex.src ∈ s ∨ ex.src ∈ t ∨ ex.src ∈ st ∨ ex.src ∈ m)
    ∧ (ex.tgt ∈ s ∨ ex.tgt ∈ t ∨ ex.tgt ∈ st ∨ ex.tgt ∈ m)
    ∧ (ex.struc.flatten ∈ s ∨ ex.struc.flatten ∈ t ∨ ex.struc.flatten ∈ st
        ∨ ex.struc.flatten ∈ m)
    ∧ (ex.mask ∈ s ∨ ex.mask ∈ t ∨ ex.mask ∈ st ∨ ex.mask ∈ m) := by
  have hread : ∀ (nm : String) (line : Line),
      line ∈ (((shardWrites srcC.path s opt.shard_size.toNat
          ++ shardWrites tgtC.path t opt.shard_size.toNat
          ++ shardWrites stC.path st opt.shard_size.toNat
          ++ shardWrites mC.path m opt.shard_size.toNat).lookup nm).getD []) →
      line ∈ s ∨ line ∈ t ∨ line ∈ st ∨ line ∈ m := by
    intro nm line hline
    cases hl : ((shardWrites srcC.path s opt.shard_size.toNat
        ++ shardWrites tgtC.path t opt.shard_size.toNat
        ++ shardWrites stC.path st opt.shard_size.toNat
        ++ shardWrites mC.path m opt.shard_size.toNat).lookup nm) with
    | none => rw [hl] at hline; simp at hline
    | some content =>
      rw [hl] at hline
      simp only [Option.getD_some] at hline
      have hmem := lookup_mem _ _ _ hl
      rcases List.mem_append.mp hmem with h | h
      · rcases List.mem_append.mp h with h | h
        · rcases List.mem_append.mp h with h | h
          · exact Or.inl (shardWrites_content_mem _ _ _ _ _ h line hline)
          · exact Or.inr (Or.inl
              (shardWrites_content_mem _ _ _ _ _ h line hline))
        · exact Or.inr (Or.inr (Or.inl
            (shardWrites_content_mem _ _ _ _ _ h line hline)))
      · exact Or.inr (Or.inr (Or.inr
          (shardWrites_content_mem _ _ _ _ _ h line hline)))
  unfold shardsOut at hd
  simp only at hd
  rcases List.mem_map.mp hd with ⟨q, hq, heqd⟩
  subst heqd
  have hcomp := build_dataset_components _ _ _ _ ex hex
  exact ⟨hread _ _ hcomp.1, hread _ _ hcomp.2.1, hread _ _ hcomp.2.2.1,
    hread _ _ hcomp.2.2.2⟩

theorem build_save_dataset_train_tokens (opt : Opt) (t : DatasetsOut)
    (ht : build_save_dataset "train" getFields opt = .ok t)
    (d : List Example) (hd : d ∈ t.datasets) (ex : Example) (hex : ex ∈ d) :
    ex.src ∈ corporaLines opt.train_src opt.train_tgt opt.train_structure
        opt.train_mask
    ∧ ex.tgt ∈ corporaLines opt.train_src opt.train_tgt opt.train_structure
        opt.train_mask
    ∧ ex.struc.flatten ∈ corporaLines opt.train_src opt.train_tgt
        opt.train_structure opt.train_mask
    ∧ ex.mask ∈ corporaLines opt.train_src opt.train_tgt opt.train_structure
        opt.train_mask := by
  have hin : ∀ line : Line,
      (line ∈ opt.train_src.lines ∨ line ∈ opt.train_tgt.lines
        ∨ line ∈ opt.train_structure.lines ∨ line ∈ opt.train_mask.lines) →
      line ∈ corporaLines opt.train_src opt.train_tgt opt.train_structure
        opt.train_mask := by
    intro line h
    unfold corporaLines
    simp only [List.mem_append]
    tauto
  unfold build_save_dataset at ht
  rw [if_pos (Or.inl rfl)] at ht
  simp only [reduceIte] at ht
  by_cases hsz : opt.shard_size > 0
  · rw [if_pos hsz] at ht
    obtain ⟨s, t', st, m, hread, hout⟩ := build_shards_ok_elim _ _ _ _ _ _ _ _ ht
    obtain ⟨hs, ht', hst, hm, -, -, -, -⟩ :=
      readCorpora_ok_spec _ _ _ _ _ _ _ _ hread
    subst hout
    have hlines := shardsOut_dataset_lines opt.train_src opt.train_tgt
      opt.train_structure opt.train_mask "train" opt s t' st m d hd ex hex
    have hback : ∀ line : Line,
        (line ∈ s ∨ line ∈ t' ∨ line ∈ st ∨ line ∈ m) →
        line ∈ corporaLines opt.train_src opt.train_tgt opt.train_structure
          opt.train_mask := by
      intro line h
      apply hin
      rcases h with h | h | h | h
      · exact Or.inl (List.mem_of_mem_take (hs ▸ h))
      · exact Or.inr (Or.inl (List.mem_of_mem_take (ht' ▸ h)))
      · exact Or.inr (Or.inr (Or.inl (List.mem_of_mem_take (hst ▸ h))))
      · exact Or.inr (Or.inr (Or.inr (List.mem_of_mem_take (hm ▸ h))))
    exact ⟨hback _ hlines.1, hback _ hlines.2.1, hback _ hlines.2.2.1,
      hback _ hlines.2.2.2⟩
  · rw [if_neg hsz] at ht
    injection ht with ht
    subst ht
    simp only at hd
    rcases List.mem_cons.mp hd with hd | hd
    · subst hd
      have hcomp := build_dataset_components _ _ _ _ ex hex
      exact ⟨hin _ (Or.inl hcomp.1), hin _ (Or.inr (Or.inl hcomp.2.1)),
        hin _ (Or.inr (Or.inr (Or.inl hcomp.2.2.1))),
        hin _ (Or.inr (Or.inr (Or.inr hcomp.2.2.2)))⟩
    · simp at hd

theorem main_ok_elim (opt : Opt) (out : MainOut) (h : main opt = .ok out) :
    ∃ t v, build_save_dataset "train" getFields opt = .ok t
      ∧ build_save_dataset "valid" getFields opt = .ok v
      ∧ out = { trainOut := t, validOut := v,
                vocabOut := build_save_vocab t.datasets getFields opt } := by
  unfold main at h
  split at h
  · exact Except.noConfusion h
  · split at h
    · exact Except.noConfusion h
    · rename_i t heqt
      split at h
      · exact Except.noConfusion h
      · rename_i v heqv
        injection h with h
        exact ⟨t, v, heqt, heqv, h.symm⟩

theorem mkVocab_freqs (c : Counter) (sp : List Token) (sz : Option Nat)
    (mf : Nat) : (mkVocab c sp sz mf).freqs = c := rfl

theorem build_vocab_vocab_cases (ds : List (List Example)) (share : Bool)
    (s1 m1 s2 m2 s3 m3 : Nat) (k : String) (v : Vocab)
    (hkv : (k, v) ∈ (save_fields_to_vocab (fieldsAssoc
      (build_vocab ds getFields share s1 m1 s2 m2 s3 m3))).2) :
    ∃ (cnt : Counter) (sp : List Token) (sz : Option Nat) (mf : Nat),
      v = mkVocab cnt sp sz mf
      ∧ sp = [UNK_WORD, PAD_WORD, BOS_WORD, EOS_WORD]
      ∧ (∀ u n, (u, n) ∈ cnt →
          ∃ d ∈ ds, ∃ ex ∈ d,
            u ∈ ex.src ∨ u ∈ ex.tgt ∨ u ∈ ex.struc.flatten ∨ u ∈ ex.mask) := by
  rw [(save_fields_to_vocab_spec _).2] at hkv
  have hsp : fieldSpecials getFields.src
      = [UNK_WORD, PAD_WORD, BOS_WORD, EOS_WORD] := rfl
  have hsrcKey : ∀ u n, (u, n) ∈ (countAll getFields ds).src →
      ∃ d ∈ ds, ∃ ex ∈ d,
        u ∈ ex.src ∨ u ∈ ex.tgt ∨ u ∈ ex.struc.flatten ∨ u ∈ ex.mask := by
    intro u n h
    obtain ⟨d, hd, ex, hexm, hu⟩ := keys_countAll_src getFields ds u n h
    exact ⟨d, hd, ex, hexm, Or.inl hu⟩
  have htgtKey : ∀ u n, (u, n) ∈ (countAll getFields ds).tgt →
      ∃ d ∈ ds, ∃ ex ∈ d,
        u ∈ ex.src ∨ u ∈ ex.tgt ∨ u ∈ ex.struc.flatten ∨ u ∈ ex.mask := by
    intro u n h
    obtain ⟨d, hd, ex, hexm, hu⟩ := keys_countAll_tgt getFields ds u n h
    exact ⟨d, hd, ex, hexm, Or.inr (Or.inl hu)⟩
  have hstKey : ∀ u n, (u, n) ∈ (countAll getFields ds).struc →
      ∃ d ∈ ds, ∃ ex ∈ d,
        u ∈ ex.src ∨ u ∈ ex.tgt ∨ u ∈ ex.struc.flatten ∨ u ∈ ex.mask := by
    intro u n h
    obtain ⟨d, hd, ex, hexm, hu⟩ := keys_countAll_struc getFields ds u n h
    exact ⟨d, hd, ex, hexm, Or.inr (Or.inr (Or.inl hu))⟩
  have hmKey : ∀ u n, (u, n) ∈ (countAll getFields ds).mask →
      ∃ d ∈ ds, ∃ ex ∈ d,
        u ∈ ex.src ∨ u ∈ ex.tgt ∨ u ∈ ex.struc.flatten ∨ u ∈ ex.mask := by
    intro u n h
    obtain ⟨d, hd, ex, hexm, hu⟩ := keys_countAll_mask getFields ds u n h
    exact ⟨d, hd, ex, hexm, Or.inr (Or.inr (Or.inr hu))⟩
  have hmergeKey : ∀ u n,
      (u, n) ∈ cntAdd (cntAdd [] (countAll getFields ds).src)
        (countAll getFields ds).tgt →
      ∃ d ∈ ds, ∃ ex ∈ d,
        u ∈ ex.src ∨ u ∈ ex.tgt ∨ u ∈ ex.struc.flatten ∨ u ∈ ex.mask := by
    intro u n h
    rcases keys_cntAdd _ _ u n h with ⟨m', hm'⟩ | ⟨m', hm'⟩
    · rcases keys_cntAdd _ _ u m' hm' with ⟨m'', hm''⟩ | ⟨m'', hm''⟩
      · simp at hm''
      · exact hsrcKey u m'' hm''
    · exact htgtKey u m' hm'
  cases share with
  | false =>
    simp [build_vocab, fieldsAssoc, vocabOf, build_field_vocab,
      List.filterMap_cons, Prod.ext_iff] at hkv
    rcases hkv with ⟨hk, hv⟩ | ⟨hk, hv⟩ | ⟨hk, hv⟩ | ⟨hk, hv⟩
    · exact ⟨_, _, _, _, hv, rfl, hsrcKey⟩
    · exact ⟨_, _, _, _, hv, rfl, htgtKey⟩
    · exact ⟨_, _, _, _, hv, rfl, hstKey⟩
    · exact ⟨_, _, _, _, hv, rfl, hmKey⟩
  | true =>
    simp [build_vocab, merge_vocabs, fieldsAssoc, vocabOf, build_field_vocab,
      mkVocab_freqs, List.filterMap_cons, Prod.ext_iff] at hkv
    rcases hkv with ⟨hk, hv⟩ | ⟨hk, hv⟩ | ⟨hk, hv⟩ | ⟨hk, hv⟩
    · exact ⟨_, _, _, _, hv, rfl, hmergeKey⟩
    · exact ⟨_, _, _, _, hv, rfl, hmergeKey⟩
    · exact ⟨_, _, _, _, hv, rfl, hstKey⟩
    · exact ⟨_, _, _, _, hv, rfl, hmKey⟩

/-- Claim C10: all vocabularies are built exclusively from the training
dataset shards: the vocabulary output of `main` is unchanged under any
change of the four validation corpora (whenever both runs succeed), and
every token of every persisted vocabulary is either a special token or
occurs in the training corpora, so no validation token ever contributes. -/
theorem c10_vocab_from_train_only :
    (∀ (opt : Opt) (vs vt vst vm : Corpus) (out out' : MainOut),
        main opt = .ok out →
        main { opt with valid_src := vs, valid_tgt := vt, valid_structure := vst, valid_mask := vm } = .ok out' →
        out.vocabOut = out'.vocabOut)
    ∧ (∀ (opt : Opt) (out : MainOut), main opt = .ok out →
        ∀ k v, (k, v) ∈ out.vocabOut.ptContent → ∀ tok ∈ v.itos,
          tok ∈ [UNK_WORD, PAD_WORD, BOS_WORD, EOS_WORD]
          ∨ tok ∈ (corporaLines opt.train_src opt.train_tgt
              opt.train_structure opt.train_mask).flatten) := by
  constructor
  · intro opt vs vt vst vm out out' h1 h2
    obtain ⟨t, v, ht, hv, hout⟩ := main_ok_elim opt out h1
    obtain ⟨t', v', ht', hv', hout'⟩ := main_ok_elim _ out' h2
    have htrain : build_save_dataset "train" getFields
        { opt with valid_src := vs, valid_tgt := vt, valid_structure := vst, valid_mask := vm }
        = build_save_dataset "train" getFields opt := rfl
    rw [htrain] at ht'
    have htt : t' = t := by
      have hx := ht'.symm.trans ht
      injection hx
    subst htt
    subst hout
    subst hout'
    rfl
  · intro opt out hmain k v hkv tok htok
    obtain ⟨t, vd, ht, hv, hout⟩ := main_ok_elim opt out hmain
    subst hout
    have hkv' : (k, v) ∈ (save_fields_to_vocab (fieldsAssoc
        (build_vocab t.datasets getFields opt.share_vocab
          opt.src_vocab_size opt.src_words_min_frequency
          opt.tgt_vocab_size opt.tgt_words_min_frequency
          opt.structure_vocab_size opt.structure_words_min_frequency))).2 := hkv
    obtain ⟨cnt, sp, sz, mf, hveq, hspeq, hkeys⟩ :=
      build_vocab_vocab_cases t.datasets opt.share_vocab _ _ _ _ _ _ k v hkv'
    subst hveq
    rcases mkVocab_itos_mem cnt sp sz mf tok htok with hins | ⟨n, hn⟩
    · exact Or.inl (hspeq ▸ hins)
    · obtain ⟨d, hd, ex, hexm, hcomp⟩ := hkeys tok n hn
      have hlines := build_save_dataset_train_tokens opt t ht d hd ex hexm
      right
      apply List.mem_flatten.mpr
      rcases hcomp with hc | hc | hc | hc
      · exact ⟨ex.src, hlines.1, hc⟩
      · exact ⟨ex.tgt, hlines.2.1, hc⟩
      · exact ⟨ex.struc.flatten, hlines.2.2.1, hc⟩
      · exact ⟨ex.mask, hlines.2.2.2, hc⟩

/-- Witness for C10 at `sampleOpt`: changing the validation source corpus
leaves the vocabulary output unchanged, and every persisted vocabulary
token is special or a training-corpus token. -/
theorem c10_vocab_from_train_only_witness :
    main sampleOpt = .ok mOut
    ∧ main { sampleOpt with valid_src := ⟨"vs", [[30]]⟩, valid_tgt := ⟨"vt", [[21]]⟩, valid_structure := ⟨"vst", [[5, 5, 5, 5]]⟩, valid_mask := ⟨"vm", [[6]]⟩ } = .ok mOut2
    ∧ mOut.vocabOut = mOut2.vocabOut
    ∧ (∀ k v, (k, v) ∈ mOut.vocabOut.ptContent → ∀ tok ∈ v.itos,
        tok ∈ [UNK_WORD, PAD_WORD, BOS_WORD, EOS_WORD]
        ∨ tok ∈ (corporaLines sampleOpt.train_src sampleOpt.train_tgt
            sampleOpt.train_structure sampleOpt.train_mask).flatten) := by
  refine ⟨by decide, by decide, ?_, ?_⟩
  · exact c10_vocab_from_train_only.1 sampleOpt ⟨"vs", [[30]]⟩ ⟨"vt", [[21]]⟩
      ⟨"vst", [[5, 5, 5, 5]]⟩ ⟨"vm", [[6]]⟩ mOut mOut2 (by decide) (by decide)
  · exact c10_vocab_from_train_only.2 sampleOpt mOut (by decide)

end Preprocess
